import Mathlib

/-!
Verification of the `scope` session/loop engine.

This file gives a shallow embedding of the pure decision logic of the
repository (rubric parsing, verdict parsing and composition, the doer→checker
loop history construction, termination evaluation, session-id allocation,
session persistence and the TUI sort key) and proves the specification's
claims about it.

Subprocess execution, tmux and the agent are external effects; they are
modelled by explicit oracle parameters (`exec`, agent environments), while
every decision the Python code makes on the oracle's answers is embedded
faithfully.  Python string primitives (`str.strip`, `str.split`,
`str.upper`, `in`, slicing, `int(...)`) are modelled on `List Char`.
-/

/-! ## Python string primitives -/

/-- Characters stripped by Python `str.strip()` (ASCII whitespace; the
unicode cases do not occur in the embedded code's inputs). -/
def isPySpace (c : Char) : Bool :=
  c == ' ' || c == '\t' || c == '\n' || c == '\r' ||
    c == Char.ofNat 11 || c == Char.ofNat 12

/-- Python `str.strip()` on a character list. -/
def trimChars (cs : List Char) : List Char :=
  ((cs.dropWhile isPySpace).reverse.dropWhile isPySpace).reverse

/-- Python `str.strip()`. -/
def pyStrip (s : String) : String := String.mk (trimChars s.data)

/-- Python `str.split(sep)` for a single-character separator, on character lists.
`splitChar c []` is `[[]]`, matching Python `"".split(sep) == [""]`. -/
def splitChar (sep : Char) : List Char → List (List Char)
  | [] => [[]]
  | c :: rest =>
    match splitChar sep rest with
    | [] => [[]]          -- unreachable: splitChar never returns []
    | l :: ls => if c == sep then [] :: l :: ls else (c :: l) :: ls

/-- Python `str.split("\n")`. -/
def pyLines (s : String) : List String := (splitChar '\n' s.data).map String.mk

/-- Python `str.split(sep)` for a one-character separator string. -/
def pySplit1 (s : String) (sep : Char) : List String :=
  (splitChar sep s.data).map String.mk

/-- Python `str.upper()` (ASCII). -/
def pyUpper (s : String) : String := String.mk (s.data.map Char.toUpper)

/-- Python `str.lower()` (ASCII). -/
def pyLower (s : String) : String := String.mk (s.data.map Char.toLower)

/-- Python substring test `pat in s` on character lists. -/
def hasSub (pat : List Char) : List Char → Bool
  | [] => pat.isEmpty
  | c :: rest => pat.isPrefixOf (c :: rest) || hasSub pat rest

/-- Python `s.startswith(pre)`. -/
def pyStartswith (s pre : String) : Bool := pre.data.isPrefixOf s.data

/-- Python slicing `s[:n]`. -/
def pyTake (n : ℕ) (s : String) : String := String.mk (s.data.take n)

/-- Python `s[n:]`. -/
def pyDrop (n : ℕ) (s : String) : String := String.mk (s.data.drop n)

/-- Python `sep.join(parts)`. -/
def joinSep (sep : String) : List String → String
  | [] => ""
  | [x] => x
  | x :: y :: rest => x ++ sep ++ joinSep sep (y :: rest)

/-- The backtick character (written via its code point). -/
def backtick : Char := Char.ofNat 96

/-- Decimal digit to character. -/
def digitChar (d : ℕ) : Char := Char.ofNat (48 + d)

/-- Little-endian decimal digits, fuel-based so that kernel reduction works
(`decDigits n = Nat.digits 10 n`, proved below). -/
def decDigitsAux : ℕ → ℕ → List ℕ
  | _, 0 => []
  | 0, _ + 1 => []        -- unreachable with fuel ≥ n
  | fuel + 1, n + 1 => (n + 1) % 10 :: decDigitsAux fuel ((n + 1) / 10)

/-- Little-endian decimal digits of `n`. -/
def decDigits (n : ℕ) : List ℕ := decDigitsAux n n

/-- Python `str(n)` for a non-negative integer: standard decimal notation. -/
def pyStr (n : ℕ) : String :=
  if n = 0 then "0" else String.mk ((decDigits n).reverse.map digitChar)

/-- Python `str(z)` for an integer. -/
def pyStrInt (z : ℤ) : String :=
  if z < 0 then "-" ++ pyStr z.natAbs else pyStr z.natAbs

/-- Decimal value of a digit-character list (most significant first). -/
def digitsVal (ds : List Char) : ℕ :=
  ds.foldl (fun a c => 10 * a + (c.toNat - 48)) 0

/-- Python `int(s)` restricted to optionally-signed decimal literals
(underscore separators, which never occur in session ids, are not
modelled).  `none` models a raised `ValueError`. -/
def pyInt (s : String) : Option ℤ :=
  match trimChars s.data with
  | [] => none
  | c :: ds =>
    if c == '-' then
      if ds ≠ [] ∧ ds.all Char.isDigit then some (-(digitsVal ds : ℤ)) else none
    else if c == '+' then
      if ds ≠ [] ∧ ds.all Char.isDigit then some ((digitsVal ds : ℤ)) else none
    else if (c :: ds).all Char.isDigit then some ((digitsVal (c :: ds) : ℤ)) else none

example : pyInt "  12 " = some 12 := by decide
example : pyInt "-3" = some (-3) := by decide
example : pyInt "1-0-do" = none := by decide
example : pyStr 120 = "120" := by decide
example : pyLines "a\nb\n" = ["a", "b", ""] := by decide
example : pyStrip "  a b\n" = "a b" := by decide
example : hasSub "ACC".data "XACCY".data = true := by decide

/-! ## Lemmas about the string primitives -/

theorem decDigitsAux_eq_digits : ∀ fuel n, n ≤ fuel → decDigitsAux fuel n = Nat.digits 10 n := by
  intro fuel
  induction fuel with
  | zero =>
    intro n hn
    interval_cases n
    simp [decDigitsAux]
  | succ f ih =>
    intro n hn
    cases n with
    | zero => simp [decDigitsAux]
    | succ m =>
      rw [decDigitsAux, Nat.digits_def' (by norm_num) (Nat.succ_pos m)]
      rw [ih ((m + 1) / 10) ?_]
      have := Nat.div_lt_self (Nat.succ_pos m) (by norm_num : (1:ℕ) < 10)
      omega

theorem decDigits_eq_digits (n : ℕ) : decDigits n = Nat.digits 10 n :=
  decDigitsAux_eq_digits n n le_rfl

theorem digitChar_toNat {d : ℕ} (hd : d < 10) : (digitChar d).toNat = 48 + d := by
  interval_cases d <;> decide

theorem pyStr_data (n : ℕ) :
    (pyStr n).data = if n = 0 then ['0'] else (decDigits n).reverse.map digitChar := by
  unfold pyStr
  split <;> rfl

theorem mem_pyStr_data {n : ℕ} {c : Char} (hc : c ∈ (pyStr n).data) :
    ∃ d, d < 10 ∧ c = digitChar d := by
  rw [pyStr_data] at hc
  split at hc
  · have hc0 : c = '0' := by simpa using hc
    exact ⟨0, by norm_num, by rw [hc0]; decide⟩
  · rw [List.mem_map] at hc
    obtain ⟨d, hd, rfl⟩ := hc
    rw [List.mem_reverse, decDigits_eq_digits] at hd
    exact ⟨d, Nat.digits_lt_base (by norm_num) hd, rfl⟩

theorem digitChar_not_space {d : ℕ} (hd : d < 10) : isPySpace (digitChar d) = false := by
  interval_cases d <;> decide

theorem digitChar_isDigit {d : ℕ} (hd : d < 10) : Char.isDigit (digitChar d) = true := by
  interval_cases d <;> decide

theorem dropWhile_eq_self_of_head {p : Char → Bool} {c : Char} {cs : List Char}
    (h : p c = false) : (c :: cs).dropWhile p = c :: cs := by
  simp [List.dropWhile_cons, h]

theorem trimChars_eq_self_of_all {cs : List Char}
    (h : ∀ c ∈ cs, isPySpace c = false) : trimChars cs = cs := by
  unfold trimChars
  have h1 : cs.dropWhile isPySpace = cs := by
    cases cs with
    | nil => rfl
    | cons c rest => exact dropWhile_eq_self_of_head (h c (by simp))
  rw [h1]
  have h2 : cs.reverse.dropWhile isPySpace = cs.reverse := by
    cases hrev : cs.reverse with
    | nil => rfl
    | cons c rest =>
      refine dropWhile_eq_self_of_head (h c ?_)
      have : c ∈ cs.reverse := by rw [hrev]; simp
      simpa using this
  rw [h2, List.reverse_reverse]

theorem trimChars_pyStr (n : ℕ) : trimChars (pyStr n).data = (pyStr n).data := by
  refine trimChars_eq_self_of_all (fun c hc => ?_)
  obtain ⟨d, hd, rfl⟩ := mem_pyStr_data hc
  exact digitChar_not_space hd

theorem digitsVal_map_rev {L : List ℕ} (h : ∀ d ∈ L, d < 10) :
    digitsVal (L.reverse.map digitChar) = Nat.ofDigits 10 L := by
  induction L with
  | nil => simp [digitsVal, Nat.ofDigits_nil]
  | cons d L ih =>
    have hd : d < 10 := h d (by simp)
    have hL : ∀ x ∈ L, x < 10 := fun x hx => h x (by simp [hx])
    unfold digitsVal at *
    rw [List.reverse_cons, List.map_append, List.foldl_append, ih hL, Nat.ofDigits_cons]
    simp [digitChar_toNat hd]
    ring

theorem pyStr_ne_empty (n : ℕ) : (pyStr n).data ≠ [] := by
  rw [pyStr_data]
  split
  · simp
  · simp only [ne_eq, List.map_eq_nil_iff, List.reverse_eq_nil_iff]
    rw [decDigits_eq_digits]
    exact Nat.digits_ne_nil_iff_ne_zero.mpr (by assumption)

theorem pyInt_pyStr (n : ℕ) : pyInt (pyStr n) = some (n : ℤ) := by
  unfold pyInt
  rw [trimChars_pyStr]
  by_cases hn : n = 0
  · subst hn; decide
  rcases hcs : (pyStr n).data with _ | ⟨c, ds⟩
  · exact absurd hcs (pyStr_ne_empty n)
  have hcmem : c ∈ (pyStr n).data := by rw [hcs]; simp
  obtain ⟨d, hd, rfl⟩ := mem_pyStr_data hcmem
  have hne1 : (digitChar d == '-') = false := by interval_cases d <;> decide
  have hne2 : (digitChar d == '+') = false := by interval_cases d <;> decide
  have hall : (digitChar d :: ds).all Char.isDigit = true := by
    rw [← hcs, List.all_eq_true]
    intro x hx
    obtain ⟨e, he, rfl⟩ := mem_pyStr_data hx
    exact digitChar_isDigit he
  have hval : digitsVal ((pyStr n).data) = n := by
    rw [pyStr_data, if_neg hn]
    have h10 : ∀ x ∈ decDigits n, x < 10 := by
      intro x hx
      rw [decDigits_eq_digits] at hx
      exact Nat.digits_lt_base (by norm_num) hx
    rw [digitsVal_map_rev h10, decDigits_eq_digits, Nat.ofDigits_digits]
  rw [hcs] at hval
  simp [hne1, hne2, hall, hval]

theorem pyStr_injective : Function.Injective pyStr := by
  intro a b hab
  have h1 := pyInt_pyStr a
  rw [hab, pyInt_pyStr b] at h1
  have h2 : (b : ℤ) = (a : ℤ) := Option.some_injective _ h1
  exact_mod_cast h2.symm

theorem splitChar_ne_nil (sep : Char) (cs : List Char) : splitChar sep cs ≠ [] := by
  cases cs with
  | nil => simp [splitChar]
  | cons c rest =>
    unfold splitChar
    split
    · simp
    · split <;> simp

/-- Prepend `a` to the first chunk of a split result. -/
def consSplit (a : List Char) : List (List Char) → List (List Char)
  | [] => [a]
  | l :: ls => (a ++ l) :: ls

theorem splitChar_cons (sep c : Char) (rest : List Char) :
    splitChar sep (c :: rest) =
      if c == sep then [] :: splitChar sep rest
      else consSplit [c] (splitChar sep rest) := by
  rcases hr : splitChar sep rest with _ | ⟨l, ls⟩
  · exact absurd hr (splitChar_ne_nil sep rest)
  · simp [splitChar, hr, consSplit]

theorem consSplit_cons (c : Char) (a : List Char) (r : List (List Char)) :
    consSplit [c] (consSplit a r) = consSplit (c :: a) r := by
  cases r <;> simp [consSplit]

theorem splitChar_append (sep : Char) (a b : List Char)
    (h : ∀ c ∈ a, (c == sep) = false) :
    splitChar sep (a ++ b) = consSplit a (splitChar sep b) := by
  induction a with
  | nil =>
    cases hb : splitChar sep b with
    | nil => exact absurd hb (splitChar_ne_nil sep b)
    | cons l ls => simp [consSplit, hb]
  | cons c a ih =>
    have hc : (c == sep) = false := h c (by simp)
    have ha : ∀ x ∈ a, (x == sep) = false := fun x hx => h x (by simp [hx])
    simp [splitChar_cons, hc, ih ha, consSplit_cons]

theorem splitChar_no_sep {sep : Char} {a : List Char}
    (h : ∀ c ∈ a, (c == sep) = false) : splitChar sep a = [a] := by
  have := splitChar_append sep a [] h
  simpa [splitChar, consSplit] using this

theorem splitChar_cons_self (sep : Char) (b : List Char) :
    splitChar sep (sep :: b) = [] :: splitChar sep b := by
  simp [splitChar_cons]

theorem isPrefixOf_append_same : ∀ (a b c : List Char),
    (a ++ b).isPrefixOf (a ++ c) = b.isPrefixOf c := by
  intro a b c
  induction a with
  | nil => rfl
  | cons x a ih => simp [List.isPrefixOf, ih]

/-! ## Embedding of `scope/core/loop.py` — rubric parsing -/

/-- Embeds `loop.py` `Rubric` dataclass: parsed rubric with optional sections. -/
structure Rubric where
  title : String := ""
  gates : List String := []
  criteria : List String := []
  nice_to_have : List String := []
  notes : String := ""
deriving Repr, DecidableEq

/-- Embeds `Rubric.has_gates`. -/
def Rubric.has_gates (r : Rubric) : Bool := !r.gates.isEmpty

/-- Embeds `Rubric.has_criteria`. -/
def Rubric.has_criteria (r : Rubric) : Bool :=
  !r.criteria.isEmpty || !r.nice_to_have.isEmpty

/-- A line matching the section regex `^##\s+(.+)$` (anchored per line via
`re.MULTILINE`): `##`, at least one whitespace character, at least one
further character. -/
def isSectionHeading (line : String) : Bool :=
  match line.data with
  | '#' :: '#' :: c :: _ :: _ => isPySpace c
  | _ => false

/-- The heading text of a section line: `match.group(1).strip().lower()`.
Because the greedy `\s+` backtracks at most to leave one whitespace
character for `.+`, after `strip()` this equals the text after `##`
stripped, lowercased. -/
def headingOf (line : String) : String := pyLower (pyStrip (pyDrop 2 line))

/-- Split rubric text into `(heading, body)` sections, where a body is the
text strictly between one `## ` heading line and the next, `strip()`ped —
exactly what `parse_rubric` computes from `section_pattern.finditer`. -/
def sectionsOf : List String → List (String × String)
  | [] => []
  | l :: ls =>
    let rest := sectionsOf ls
    if isSectionHeading l then
      (headingOf l,
        pyStrip (joinSep "\n" (ls.takeWhile (fun x => !isSectionHeading x)))) :: rest
    else rest

/-- Gate-line match `^-\s+`cmd``  (backtick-wrapped list item, non-greedy up
to the next backtick, applied to the `strip()`ped line). -/
def gateOf (raw : String) : Option String :=
  match (pyStrip raw).data with
  | '-' :: rest =>
    if (rest.takeWhile isPySpace).isEmpty then none
    else
      match rest.dropWhile isPySpace with
      | c :: r3 =>
        if c == backtick then
          let inner := r3.takeWhile (fun x => !(x == backtick))
          if inner.isEmpty then none
          else if (r3.drop inner.length).head? == some backtick then
            some (String.mk inner)
          else none
        else none
      | [] => none
  | _ => none

/-- Plain list-item match `^-\s+(.+)$` on the `strip()`ped line. -/
def listItemOf (raw : String) : Option String :=
  match (pyStrip raw).data with
  | '-' :: rest =>
    if (rest.takeWhile isPySpace).isEmpty then none
    else
      match rest.dropWhile isPySpace with
      | [] => none
      | r2 => some (String.mk r2)
  | _ => none

/-- Title match `re.match(r"^#\s+(.+)$", text.strip(), re.MULTILINE)`:
a `#` at position 0 followed by whitespace; the captured group is the
first line of what follows the whitespace run, `strip()`ped.  (The
stripped text never ends in whitespace, so the greedy `\s+` never needs
to backtrack across a newline.) -/
def titleOf (text : String) : String :=
  match (pyStrip text).data with
  | '#' :: c :: rest =>
    if isPySpace c then
      pyStrip (String.mk (((c :: rest).dropWhile isPySpace).takeWhile (fun x => !(x == '\n'))))
    else ""
  | _ => ""

/-- Embeds `loop.py` `parse_rubric`: parse rubric markdown into structured
sections. -/
def parse_rubric (text : String) : Rubric :=
  let init : Rubric := { title := titleOf text }
  (sectionsOf (pyLines text)).foldl
    (fun r hb =>
      let heading := hb.1
      let body := hb.2
      if heading = "gates" then
        { r with gates := r.gates ++ (pyLines body).filterMap gateOf }
      else if heading = "criteria" then
        { r with criteria := r.criteria ++ (pyLines body).filterMap listItemOf }
      else if heading = "nice to have" ∨ heading = "nice-to-have" then
        { r with nice_to_have := r.nice_to_have ++ (pyLines body).filterMap listItemOf }
      else if heading = "notes" then
        { r with notes := body }
      else r)
    init

/-- Python `pathlib.PurePath.suffix` of a path string: the extension of the final
component, or `""` when the final component has no dot, starts with its
only dot, or ends with the dot. -/
def pySuffix (p : String) : String :=
  let name := (((splitChar '/' p.data).map String.mk).filter (fun s => s ≠ "")).getLastD ""
  let cs := name.data
  let tail := (cs.reverse.takeWhile (fun x => !(x == '.'))).reverse
  let i : ℤ := (cs.length : ℤ) - tail.length - 1
  if cs.contains '.' ∧ 0 < i ∧ tail ≠ [] then String.mk ('.' :: tail) else ""

/-- Embeds `loop.py` `detect_checker_type`.  `is_file` abstracts
`Path(checker).is_file()` (a filesystem query). -/
def detect_checker_type (is_file : String → Bool) (checker : String) : String :=
  if pyStartswith checker "agent:" then "agent"
  else if pySuffix checker = ".md" ∨ pySuffix checker = ".markdown" then "file"
  else if is_file checker then "file"
  else "command"

/-- Embeds `loop.py` `sugar_to_rubric`.  `none` models the `ValueError` raised for
file paths. -/
def sugar_to_rubric (is_file : String → Bool) (checker : String) : Option String :=
  let t := detect_checker_type is_file checker
  if t = "agent" then
    some ("## Criteria\n- " ++ pyStrip (pyDrop 6 checker) ++ "\n")
  else if t = "command" then
    some ("## Gates\n- " ++ String.mk [backtick] ++ checker ++ String.mk [backtick] ++ "\n")
  else
    none

example : pySuffix "rubric.md" = ".md" := by decide
example : pySuffix "echo hi" = "" := by decide
example : pySuffix "a/b.markdown" = ".markdown" := by decide
example : parse_rubric "## Gates\n- `pytest`\n- `ruff check`\n\n## Criteria\n- handles empty input\n" =
    { gates := ["pytest", "ruff check"], criteria := ["handles empty input"] } := by decide
example : (sugar_to_rubric (fun _ => false) "pytest -x").map (fun t => (parse_rubric t).gates) =
    some ["pytest -x"] := by decide
example : (sugar_to_rubric (fun _ => false) "agent: check the diff").map
    (fun t => (parse_rubric t).criteria) = some ["check the diff"] := by decide

theorem mk_data (s : String) : String.mk s.data = s := by
  cases s
  rfl

theorem length_dropWhile_le (p : Char → Bool) (l : List Char) :
    (l.dropWhile p).length ≤ l.length := by
  induction l with
  | nil => simp
  | cons c rest ih =>
    rw [List.dropWhile_cons]
    split
    · exact ih.trans (by simp)
    · simp

theorem dropWhile_eq_self_of_length (p : Char → Bool) (l : List Char)
    (h : (l.dropWhile p).length = l.length) : l.dropWhile p = l := by
  cases l with
  | nil => rfl
  | cons c rest =>
    rw [List.dropWhile_cons] at h ⊢
    by_cases hc : p c = true
    · rw [if_pos hc] at h ⊢
      have := length_dropWhile_le p rest
      simp at h
      exfalso
      omega
    · rw [if_neg hc]

theorem head_not_space_of_dropWhile_eq {cs : List Char}
    (h : cs.dropWhile isPySpace = cs) :
    ∀ c, cs.head? = some c → isPySpace c = false := by
  intro c hc
  cases cs with
  | nil => simp at hc
  | cons x rest =>
    simp at hc
    subst hc
    rw [List.dropWhile_cons] at h
    by_contra hsp
    rw [if_pos (by simpa using hsp)] at h
    have := length_dropWhile_le isPySpace rest
    have hlen := congrArg List.length h
    simp at hlen
    omega

theorem trim_fix_ends {cs : List Char} (h : trimChars cs = cs) :
    (∀ c, cs.head? = some c → isPySpace c = false) ∧
      (∀ c, cs.getLast? = some c → isPySpace c = false) := by
  unfold trimChars at h
  have hlen1 := congrArg List.length h
  have le1 : ((cs.dropWhile isPySpace).reverse.dropWhile isPySpace).length
      ≤ (cs.dropWhile isPySpace).length := by
    have := length_dropWhile_le isPySpace (cs.dropWhile isPySpace).reverse
    simpa using this
  have le2 := length_dropWhile_le isPySpace cs
  simp only [List.length_reverse] at hlen1
  have heq1 : (cs.dropWhile isPySpace).length = cs.length := by omega
  have hfix1 : cs.dropWhile isPySpace = cs :=
    dropWhile_eq_self_of_length _ _ heq1
  rw [hfix1] at h
  have hfix2 : cs.reverse.dropWhile isPySpace = cs.reverse := by
    have : (cs.reverse.dropWhile isPySpace).reverse.reverse = cs.reverse :=
      congrArg List.reverse h
    simpa using this
  constructor
  · exact head_not_space_of_dropWhile_eq hfix1
  · intro c hc
    refine head_not_space_of_dropWhile_eq hfix2 c ?_
    rw [List.head?_reverse]
    exact hc

theorem trimChars_eq_self_of_ends {cs : List Char}
    (h1 : ∀ c, cs.head? = some c → isPySpace c = false)
    (h2 : ∀ c, cs.getLast? = some c → isPySpace c = false) :
    trimChars cs = cs := by
  unfold trimChars
  have hfix1 : cs.dropWhile isPySpace = cs := by
    cases cs with
    | nil => rfl
    | cons x rest => exact dropWhile_eq_self_of_head (h1 x (by simp))
  rw [hfix1]
  have hfix2 : cs.reverse.dropWhile isPySpace = cs.reverse := by
    cases hrev : cs.reverse with
    | nil => rfl
    | cons x rest =>
      refine dropWhile_eq_self_of_head (h2 x ?_)
      rw [← List.head?_reverse, hrev]
      rfl
  rw [hfix2, List.reverse_reverse]

theorem dropWhile_append_of_all {p : Char → Bool} {a : List Char} (b : List Char)
    (h : ∀ x ∈ a, p x = true) : (a ++ b).dropWhile p = b.dropWhile p := by
  induction a with
  | nil => rfl
  | cons c a ih =>
    simp only [List.cons_append, List.dropWhile_cons, h c (by simp)]
    exact ih (fun x hx => h x (by simp [hx]))

theorem takeWhile_append_of_all {p : Char → Bool} {a : List Char} (b : List Char)
    (h : ∀ x ∈ a, p x = true) : (a ++ b).takeWhile p = a ++ b.takeWhile p := by
  induction a with
  | nil => rfl
  | cons c a ih =>
    simp only [List.cons_append, List.takeWhile_cons, h c (by simp), if_true]
    rw [ih (fun x hx => h x (by simp [hx]))]

theorem trim_fix_parts {cs : List Char} (h : trimChars cs = cs) :
    cs.dropWhile isPySpace = cs ∧ cs.reverse.dropWhile isPySpace = cs.reverse := by
  unfold trimChars at h
  have hlen1 := congrArg List.length h
  have le1 : ((cs.dropWhile isPySpace).reverse.dropWhile isPySpace).length
      ≤ (cs.dropWhile isPySpace).length := by
    have := length_dropWhile_le isPySpace (cs.dropWhile isPySpace).reverse
    simpa using this
  have le2 := length_dropWhile_le isPySpace cs
  simp only [List.length_reverse] at hlen1
  have heq1 : (cs.dropWhile isPySpace).length = cs.length := by omega
  have hfix1 : cs.dropWhile isPySpace = cs :=
    dropWhile_eq_self_of_length _ _ heq1
  rw [hfix1] at h
  refine ⟨hfix1, ?_⟩
  have : (cs.reverse.dropWhile isPySpace).reverse.reverse = cs.reverse :=
    congrArg List.reverse h
  simpa using this

theorem trimChars_append_ws {a : List Char} (ws : List Char)
    (ha : trimChars a = a) (hws : ∀ x ∈ ws, isPySpace x = true) :
    trimChars (a ++ ws) = a := by
  obtain ⟨hfix1, hfix2⟩ := trim_fix_parts ha
  unfold trimChars
  have hwsrev : ∀ x ∈ ws.reverse, isPySpace x = true := by
    intro x hx
    exact hws x (by simpa using hx)
  cases a with
  | nil =>
    simp only [List.nil_append]
    have hnil : ws.dropWhile isPySpace = [] := by
      have := dropWhile_append_of_all [] hws
      simpa using this
    rw [hnil]
    rfl
  | cons y t =>
    have hy : isPySpace y = false :=
      head_not_space_of_dropWhile_eq hfix1 y (by simp)
    have h1 : ((y :: t) ++ ws).dropWhile isPySpace = (y :: t) ++ ws := by
      simpa using @dropWhile_eq_self_of_head isPySpace y (t ++ ws) hy
    rw [h1, List.reverse_append, dropWhile_append_of_all _ hwsrev, hfix2]
    simp

theorem trimChars_ws_append {a : List Char} (ws : List Char)
    (ha : trimChars a = a) (hws : ∀ x ∈ ws, isPySpace x = true) :
    trimChars (ws ++ a) = a := by
  obtain ⟨hfix1, hfix2⟩ := trim_fix_parts ha
  unfold trimChars
  rw [dropWhile_append_of_all _ hws, hfix1, hfix2, List.reverse_reverse]

/-! ## Embedding of `loop.py` — verdict parsing and iteration ids -/

/-- The scanning loop inside `parse_verdict`: walk the reversed lines, and
on each line (uppercased then stripped) test `TERMINATE`, then `ACCEPT`,
then `RETRY` as substrings; fall through to the next line. -/
def verdictScan (response : String) : List String → String × String
  | [] => ("retry", response)
  | line :: rest =>
    let lineUpper := pyStrip (pyUpper line)
    if hasSub "TERMINATE".data lineUpper.data then ("terminate", response)
    else if hasSub "ACCEPT".data lineUpper.data then ("accept", response)
    else if hasSub "RETRY".data lineUpper.data then ("retry", response)
    else verdictScan response rest

/-- Embeds `loop.py` `parse_verdict`: scan the stripped response's lines from the
end; the feedback is always the full response text. -/
def parse_verdict (response : String) : String × String :=
  verdictScan response ((pyLines (pyStrip response)).reverse)

/-- Specification-side predicate: the line (uppercased, stripped) contains
one of the three verdict tokens. -/
def lineHasVerdictToken (l : String) : Bool :=
  let u := pyStrip (pyUpper l)
  hasSub "TERMINATE".data u.data || hasSub "ACCEPT".data u.data ||
    hasSub "RETRY".data u.data

/-- Specification-side verdict of a single line, with the priority
`TERMINATE > ACCEPT > RETRY`. -/
def lineVerdict (l : String) : String :=
  let u := pyStrip (pyUpper l)
  if hasSub "TERMINATE".data u.data then "terminate"
  else if hasSub "ACCEPT".data u.data then "accept"
  else "retry"

/-- Embeds `loop.py` `iter_session_id`: deterministic id of a loop child. -/
def iter_session_id (loop_id : String) (iteration : ℕ) (role : String) : String :=
  loop_id ++ "-" ++ pyStr iteration ++ "-" ++ role

example : iter_session_id "2.1" 0 "check" = "2.1-0-check" := by decide
example : iter_session_id "2.1" 1 "do" = "2.1-1-do" := by decide
example : parse_verdict "Looks good.\nACCEPT" = ("accept", "Looks good.\nACCEPT") := by decide
example : parse_verdict "I accept this but RETRY ACCEPT TERMINATE" =
    ("terminate", "I accept this but RETRY ACCEPT TERMINATE") := by decide
example : parse_verdict "no verdict here" = ("retry", "no verdict here") := by decide
example : parse_verdict "ACCEPT\nsome trailing words" =
    ("accept", "ACCEPT\nsome trailing words") := by decide

theorem verdictScan_spec (response : String) (ls : List String) :
    verdictScan response ls =
      (match ls.find? lineHasVerdictToken with
       | some l => lineVerdict l
       | none => "retry",
       response) := by
  induction ls with
  | nil => rfl
  | cons line rest ih =>
    unfold verdictScan
    by_cases h1 : hasSub "TERMINATE".data (pyStrip (pyUpper line)).data = true
    · have htok : lineHasVerdictToken line = true := by
        simp [lineHasVerdictToken, h1]
      rw [List.find?_cons_of_pos _ htok]
      simp [h1, lineVerdict]
    · by_cases h2 : hasSub "ACCEPT".data (pyStrip (pyUpper line)).data = true
      · have htok : lineHasVerdictToken line = true := by
          simp [lineHasVerdictToken, h2]
        rw [List.find?_cons_of_pos _ htok]
        simp [h1, h2, lineVerdict]
      · by_cases h3 : hasSub "RETRY".data (pyStrip (pyUpper line)).data = true
        · have htok : lineHasVerdictToken line = true := by
            simp [lineHasVerdictToken, h3]
          rw [List.find?_cons_of_pos _ htok]
          simp [h1, h2, h3, lineVerdict]
        · have htok : lineHasVerdictToken line = false := by
            simp [lineHasVerdictToken, h1, h2, h3]
          rw [List.find?_cons_of_neg _ (by simp [htok])]
          simp only [h1, h2, h3]
          simpa using ih

/-- C5.  `parse_verdict` scans the lines of the (stripped) response from
last to first; the first scanned line containing `TERMINATE`, `ACCEPT` or
`RETRY` (case-insensitively, after upper-casing and stripping the line)
decides the verdict with priority `TERMINATE > ACCEPT > RETRY` within a
line; if no line contains a token the verdict is `retry`; the returned
feedback is always the full response text. -/
theorem parse_verdict_scans_last_to_first (response : String) :
    (parse_verdict response).2 = response ∧
    (parse_verdict response).1 =
      (match ((pyLines (pyStrip response)).reverse).find? lineHasVerdictToken with
       | some l => lineVerdict l
       | none => "retry") := by
  unfold parse_verdict
  rw [verdictScan_spec]
  exact ⟨rfl, rfl⟩

/-! ## C8 — sugar/parse round trip -/

theorem data_ne_nil {c : String} (hc : c ≠ "") : c.data ≠ [] := by
  intro hdata
  exact hc (by rw [← mk_data c, hdata])

theorem strip_fix_data {X : String} (h : pyStrip X = X) : trimChars X.data = X.data := by
  have := congrArg String.data h
  simpa [pyStrip] using this

theorem parse_rubric_gates_sugar (c : String) (hc : c ≠ "")
    (hbt : ∀ x ∈ c.data, ¬x = backtick) (hnl : ∀ x ∈ c.data, ¬x = '\n') :
    (parse_rubric ("## Gates\n- " ++ String.mk [backtick] ++ c ++ String.mk [backtick] ++ "\n")).gates = [c] ∧
    (parse_rubric ("## Gates\n- " ++ String.mk [backtick] ++ c ++ String.mk [backtick] ++ "\n")).criteria = [] := by
  set t : String :=
    "## Gates\n- " ++ String.mk [backtick] ++ c ++ String.mk [backtick] ++ "\n" with ht
  set B : List Char := '-' :: ' ' :: backtick :: (c.data ++ [backtick]) with hB
  -- character-level shape of the sugar text
  have hdata : t.data = "## Gates".data ++ '\n' :: (B ++ ['\n']) := by
    rw [ht]
    simp [String.data_append, hB]
  have hBnl : ∀ x ∈ B, (x == '\n') = false := by
    intro x hx
    rw [hB] at hx
    simp at hx
    rcases hx with h | h | h | h | h
    · subst h; decide
    · subst h; decide
    · subst h; decide
    · simpa using hnl x h
    · subst h; decide
  -- the three lines of the sugar text
  have hlines : pyLines t = ["## Gates", String.mk B, ""] := by
    unfold pyLines
    rw [hdata, splitChar_append '\n' "## Gates".data _ (by decide), splitChar_cons_self,
      splitChar_append '\n' B _ hBnl]
    simp [splitChar, consSplit, mk_data]
  -- trimming the gate line is the identity
  have hBtrim : trimChars B = B := by
    refine trimChars_eq_self_of_ends (fun x hx => ?_) (fun x hx => ?_)
    · rw [hB] at hx
      simp at hx
      subst hx
      decide
    · have : B = ('-' :: ' ' :: backtick :: c.data) ++ [backtick] := by simp [hB]
      rw [this, List.getLast?_concat] at hx
      simp at hx
      subst hx
      decide
  -- the gate line parses back to the original command
  have hgate : gateOf (String.mk B) = some c := by
    unfold gateOf
    have hstrip : (pyStrip (String.mk B)).data = B := by
      simp [pyStrip, hBtrim]
    rw [hstrip, hB]
    have htw : (' ' :: backtick :: (c.data ++ [backtick])).takeWhile isPySpace = [' '] := by
      rw [List.takeWhile_cons, if_pos (by decide), List.takeWhile_cons, if_neg (by decide)]
    have hdw : (' ' :: backtick :: (c.data ++ [backtick])).dropWhile isPySpace
        = backtick :: (c.data ++ [backtick]) := by
      rw [List.dropWhile_cons, if_pos (by decide), List.dropWhile_cons, if_neg (by decide)]
    have hinner : (c.data ++ [backtick]).takeWhile (fun x => !(x == backtick)) = c.data := by
      rw [takeWhile_append_of_all _ (fun x hx => by simp [hbt x hx])]
      simp [List.takeWhile_cons]
    have hne : c.data.isEmpty = false := by
      cases hd : c.data with
      | nil => exact absurd hd (data_ne_nil hc)
      | cons a l => rfl
    have hdropb : (c.data ++ [backtick]).drop c.data.length = [backtick] :=
      List.drop_left _ _
    simp [htw, hdw, hinner, hne, hdropb, mk_data]
  -- the sections of the sugar text
  have hhead2 : isSectionHeading (String.mk B) = false := by rw [hB]; rfl
  have hbody : pyStrip (String.mk B ++ "\n") = String.mk B := by
    unfold pyStrip
    rw [String.data_append]
    have : (String.mk B).data = B := rfl
    rw [this]
    rw [trimChars_append_ws _ hBtrim (by decide)]
  have hsec : sectionsOf (pyLines t) = [("gates", String.mk B)] := by
    rw [hlines]
    simp only [sectionsOf, hhead2, (by decide : isSectionHeading "## Gates" = true),
      (by decide : isSectionHeading "" = false)]
    simp only [List.takeWhile_cons, hhead2, (by decide : isSectionHeading "" = false),
      Bool.not_false, if_true, if_false]
    simp [joinSep, String.append_empty, hbody]
    decide
  have hlinesB : pyLines (String.mk B) = [String.mk B] := by
    unfold pyLines
    rw [splitChar_no_sep hBnl]
    simp [mk_data]
  constructor
  · simp [parse_rubric, hsec, hlinesB, hgate]
  · simp [parse_rubric, hsec, hlinesB, hgate]

theorem parse_rubric_criteria_sugar (X : String) (hX : X ≠ "")
    (hfix : pyStrip X = X) (hnl : ∀ x ∈ X.data, ¬x = '\n') :
    (parse_rubric ("## Criteria\n- " ++ X ++ "\n")).criteria = [X] ∧
    (parse_rubric ("## Criteria\n- " ++ X ++ "\n")).gates = [] := by
  set t : String := "## Criteria\n- " ++ X ++ "\n" with ht
  set B : List Char := '-' :: ' ' :: X.data with hB
  have hfixd : trimChars X.data = X.data := strip_fix_data hfix
  have hXne : X.data ≠ [] := data_ne_nil hX
  have hdata : t.data = "## Criteria".data ++ '\n' :: (B ++ ['\n']) := by
    rw [ht]
    simp [String.data_append, hB]
  have hBnl : ∀ x ∈ B, (x == '\n') = false := by
    intro x hx
    rw [hB] at hx
    simp at hx
    rcases hx with h | h | h
    · subst h; decide
    · subst h; decide
    · simpa using hnl x h
  have hlines : pyLines t = ["## Criteria", String.mk B, ""] := by
    unfold pyLines
    rw [hdata, splitChar_append '\n' "## Criteria".data _ (by decide), splitChar_cons_self,
      splitChar_append '\n' B _ hBnl]
    simp [splitChar, consSplit, mk_data]
  have hBtrim : trimChars B = B := by
    refine trimChars_eq_self_of_ends (fun x hx => ?_) (fun x hx => ?_)
    · rw [hB] at hx
      simp at hx
      subst hx
      decide
    · have hsh : B = ['-', ' '] ++ X.data := by simp [hB]
      rw [hsh, List.getLast?_append_of_ne_nil _ hXne] at hx
      exact (trim_fix_ends hfixd).2 x hx
  have hitem : listItemOf (String.mk B) = some X := by
    unfold listItemOf
    have hstrip : (pyStrip (String.mk B)).data = B := by
      simp [pyStrip, hBtrim]
    rw [hstrip, hB]
    have hdw : (' ' :: X.data).dropWhile isPySpace = X.data := by
      rw [List.dropWhile_cons, if_pos (by decide)]
      exact (trim_fix_parts hfixd).1
    cases hd : X.data with
    | nil => exact absurd hd hXne
    | cons a l =>
      rw [hd] at hdw
      simp only [List.takeWhile_cons, if_pos (by decide : isPySpace ' ' = true),
        List.isEmpty_cons, hdw]
      simp [← hd, mk_data]
  have hhead2 : isSectionHeading (String.mk B) = false := by rw [hB]; rfl
  have hbody : pyStrip (String.mk B ++ "\n") = String.mk B := by
    unfold pyStrip
    rw [String.data_append]
    have hbd : (String.mk B).data = B := rfl
    rw [hbd]
    rw [trimChars_append_ws _ hBtrim (by decide)]
  have hsec : sectionsOf (pyLines t) = [("criteria", String.mk B)] := by
    rw [hlines]
    simp only [sectionsOf, hhead2, (by decide : isSectionHeading "## Criteria" = true),
      (by decide : isSectionHeading "" = false)]
    simp only [List.takeWhile_cons, hhead2, (by decide : isSectionHeading "" = false),
      Bool.not_false, if_true, if_false]
    simp [joinSep, String.append_empty, hbody]
    decide
  have hlinesB : pyLines (String.mk B) = [String.mk B] := by
    unfold pyLines
    rw [splitChar_no_sep hBnl]
    simp [mk_data]
  constructor
  · simp [parse_rubric, hsec, hlinesB, hitem]
  · simp [parse_rubric, hsec, hlinesB, hitem]

/-- C8 counterexample.  `"echo `x`"` is a bare shell-command checker (not
`agent:`-prefixed, not a rubric file path), yet the round trip loses text:
the non-greedy gate regex stops at the first interior backtick, so the
parsed gate is `"echo "`, not the original command. -/
theorem sugar_roundtrip_backtick_counterexample :
    detect_checker_type (fun _ => false)
        ("echo " ++ String.mk [backtick] ++ "x" ++ String.mk [backtick]) = "command" ∧
    (sugar_to_rubric (fun _ => false)
        ("echo " ++ String.mk [backtick] ++ "x" ++ String.mk [backtick])).map
        (fun t => (parse_rubric t).gates) = some ["echo "] ∧
    "echo " ≠ "echo " ++ String.mk [backtick] ++ "x" ++ String.mk [backtick] := by
  decide

/-- C8 (amended).  For a bare shell-command checker `c` that is nonempty and
contains no backtick and no newline, `parse_rubric (sugar_to_rubric c)` has
gates `[c]` and no criteria; for an agent checker `"agent: X"` whose prompt
`X` is nonempty, single-line and already stripped, it has criteria `[X]`
and no gates.  (Without the backtick/newline/nonempty side conditions the
round trip fails — see the counterexample.) -/
theorem sugar_to_rubric_roundtrip :
    (∀ (is_file : String → Bool) (c : String),
        detect_checker_type is_file c = "command" → c ≠ "" →
        (∀ x ∈ c.data, ¬x = backtick) → (∀ x ∈ c.data, ¬x = '\n') →
        ∃ t, sugar_to_rubric is_file c = some t ∧
          (parse_rubric t).gates = [c] ∧ (parse_rubric t).criteria = []) ∧
    (∀ (is_file : String → Bool) (X : String),
        X ≠ "" → pyStrip X = X → (∀ x ∈ X.data, ¬x = '\n') →
        ∃ t, sugar_to_rubric is_file ("agent: " ++ X) = some t ∧
          (parse_rubric t).criteria = [X] ∧ (parse_rubric t).gates = []) := by
  constructor
  · intro is_file c hdet hc hbt hnl
    have hs : sugar_to_rubric is_file c =
        some ("## Gates\n- " ++ String.mk [backtick] ++ c ++ String.mk [backtick] ++ "\n") := by
      unfold sugar_to_rubric
      rw [hdet]
      rfl
    exact ⟨_, hs, (parse_rubric_gates_sugar c hc hbt hnl).1,
      (parse_rubric_gates_sugar c hc hbt hnl).2⟩
  · intro is_file X hX hfix hnl
    have hpre : pyStartswith ("agent: " ++ X) "agent:" = true := by
      unfold pyStartswith
      rw [String.data_append]
      rfl
    have hdet : detect_checker_type is_file ("agent: " ++ X) = "agent" := by
      unfold detect_checker_type
      rw [hpre]
      rfl
    have hdrop : pyStrip (pyDrop 6 ("agent: " ++ X)) = X := by
      unfold pyDrop pyStrip
      rw [String.data_append]
      have hd6 : ("agent: ".data ++ X.data).drop 6 = ' ' :: X.data := rfl
      simp only [hd6]
      have htr : trimChars (' ' :: X.data) = X.data := by
        have := trimChars_ws_append [' '] (strip_fix_data hfix) (by decide)
        simpa using this
      rw [htr, mk_data]
    have hs : sugar_to_rubric is_file ("agent: " ++ X) =
        some ("## Criteria\n- " ++ X ++ "\n") := by
      unfold sugar_to_rubric
      rw [hdet]
      simp [hdrop]
    exact ⟨_, hs, (parse_rubric_criteria_sugar X hX hfix hnl).1,
      (parse_rubric_criteria_sugar X hX hfix hnl).2⟩

/-- Witness for `sugar_to_rubric_roundtrip` at concrete checkers. -/
theorem sugar_to_rubric_roundtrip_witness :
    (∃ t, sugar_to_rubric (fun _ => false) "pytest -x" = some t ∧
      (parse_rubric t).gates = ["pytest -x"] ∧ (parse_rubric t).criteria = []) ∧
    (∃ t, sugar_to_rubric (fun _ => false) ("agent: " ++ "review the diff") = some t ∧
      (parse_rubric t).criteria = ["review the diff"] ∧ (parse_rubric t).gates = []) :=
  ⟨sugar_to_rubric_roundtrip.1 (fun _ => false) "pytest -x" (by decide) (by decide)
      (by decide) (by decide),
    sugar_to_rubric_roundtrip.2 (fun _ => false) "review the diff" (by decide) (by decide)
      (by decide)⟩

/-! ## Embedding of `loop.py` — gates and the composite rubric checker -/

/-- Outcome of a `subprocess.run` call (external effect). -/
inductive ProcOutcome
  | completed (returncode : ℤ) (stdout stderr : String)
  | timeout
  | oserror (msg : String)

/-- One entry of `run_gates`' result list (a dict in the source). -/
structure GateResult where
  command : String
  verdict : String
  output : String
deriving Repr, DecidableEq

/-- Embeds `loop.py` `run_command_checker`: exit 0 = accept, non-zero = retry with
stdout+stderr as feedback; timeout = retry; `OSError` = terminate.
`exec` abstracts the subprocess call. -/
def run_command_checker (exec : String → ProcOutcome) (command : String) : String × String :=
  match exec command with
  | .completed rc out err =>
    if rc = 0 then ("accept", pyStrip out)
    else
      let parts := (if pyStrip out ≠ "" then [pyStrip out] else []) ++
        (if pyStrip err ≠ "" then [pyStrip err] else [])
      let feedback := joinSep "\n" parts
      if feedback = "" then ("retry", "Command exited with code " ++ pyStrInt rc)
      else ("retry", feedback)
  | .timeout => ("retry", "Checker command timed out after 300 seconds")
  | .oserror e => ("retry", "Checker command failed to execute: " ++ e)

/-- Embeds `loop.py` `run_gates`: run every gate command; a gate passes iff the
command checker accepted. -/
def run_gates (exec : String → ProcOutcome) (gates : List String) : List GateResult :=
  gates.map (fun command =>
    let vo := run_command_checker exec command
    { command := command,
      verdict := if vo.1 = "accept" then "pass" else "fail",
      output := vo.2 })

/-- Scanner state of `_parse_criteria_summary`. -/
structure CritScanState where
  must_pass : ℕ := 0
  nice_pass : ℕ := 0
  must_count : ℕ := 0
  nice_count : ℕ := 0
  in_must : Bool := false
  in_nice : Bool := false
deriving Repr, DecidableEq

/-- Python `re.match(r"^\d+\.", line.strip())`: the stripped line starts with one
or more digits followed by a dot. -/
def startsNumbered (l : String) : Bool :=
  let t := trimChars l.data
  let ds := t.takeWhile Char.isDigit
  !ds.isEmpty && ((t.drop ds.length).head? == some '.')

/-- Embeds `loop.py` `_parse_criteria_summary`: best-effort per-criterion PASS/FAIL
counts from the agent response. -/
def parse_criteria_summary (response : String) (num_criteria num_nice : ℕ) : String :=
  let st := (pyLines response).foldl
    (fun (st : CritScanState) line =>
      let lineUpper := pyStrip (pyUpper line)
      if hasSub "MUST-HAVE".data lineUpper.data || hasSub "MUST HAVE".data lineUpper.data then
        { st with in_must := true, in_nice := false }
      else if hasSub "NICE-TO-HAVE".data lineUpper.data ||
          hasSub "NICE TO HAVE".data lineUpper.data then
        { st with in_nice := true, in_must := false }
      else if pyStartswith lineUpper "#" then
        { st with in_must := false, in_nice := false }
      else if startsNumbered line then
        if st.in_must then
          { st with
            must_count := st.must_count + 1
            must_pass := st.must_pass + (if hasSub "PASS".data lineUpper.data then 1 else 0) }
        else if st.in_nice then
          { st with
            nice_count := st.nice_count + 1
            nice_pass := st.nice_pass + (if hasSub "PASS".data lineUpper.data then 1 else 0) }
        else st
      else st)
    {}
  let total_must := if st.must_count > 0 then st.must_count else num_criteria
  let total_nice := if st.nice_count > 0 then st.nice_count else num_nice
  let parts :=
    (if total_must > 0 then [pyStr st.must_pass ++ "/" ++ pyStr total_must ++ " must"] else []) ++
    (if total_nice > 0 then [pyStr st.nice_pass ++ "/" ++ pyStr total_nice ++ " nice"] else [])
  joinSep "  " parts

/-- Environment of the agent-checker sub-session spawned by
`run_rubric_checker`: the id printed by `spawn_session`, the state
`load_session` reports once `wait_for_sessions` returns, and the content of
its `result` file. -/
structure AgentEnv where
  sessionId : String
  state : Option String
  response : String

/-- One history entry of the loop (`history` dicts in `loop.py`); optional
dict keys are `Option`s / possibly-empty lists. -/
structure HistEntry where
  iteration : ℕ
  doer_session : String
  verdict : String
  feedback : String
  checker_session : Option String := none
  gates : List GateResult := []
  criteria_summary : Option String := none
  rubric_hash : Option String := none
deriving Repr, DecidableEq

/-- Return value of `run_rubric_checker`. -/
structure RubricOutcome where
  verdict : String
  feedback : String
  checker_session : String
  gate_results : List GateResult
  criteria_summary : String
deriving Repr, DecidableEq

/-- The part of `run_rubric_checker` after the spawned checker session was
found neither aborted/failed/exited: read the response, parse per-criterion
summary, and compose the verdict (agent `terminate` first, then failed
gates, then the agent verdict). -/
def rubricAgentRest (agent : AgentEnv) (rubric : Rubric)
    (gate_results : List GateResult) : RubricOutcome :=
  if agent.response = "" then
    { verdict := "retry",
      feedback := "Checker session " ++ agent.sessionId ++ " produced no output",
      checker_session := agent.sessionId, gate_results := gate_results,
      criteria_summary := "" }
  else
    let criteria_summary := parse_criteria_summary agent.response
      rubric.criteria.length rubric.nice_to_have.length
    let gates_pass := gate_results.all (fun g => g.verdict == "pass")
    let agent_verdict := (parse_verdict agent.response).1
    let agent_feedback := (parse_verdict agent.response).2
    if agent_verdict = "terminate" then
      { verdict := "terminate", feedback := agent_feedback,
        checker_session := agent.sessionId, gate_results := gate_results,
        criteria_summary := criteria_summary }
    else if !gates_pass then
      let failed := gate_results.filter (fun g => !(g.verdict == "pass"))
      let gate_feedback := "Failed gates:\n" ++ joinSep "\n"
        (failed.map (fun g => "- " ++ String.mk [backtick] ++ g.command ++
          String.mk [backtick] ++ ": " ++ pyTake 500 g.output))
      { verdict := "retry",
        feedback := gate_feedback ++ "\n\nAgent feedback:\n" ++ agent_feedback,
        checker_session := agent.sessionId, gate_results := gate_results,
        criteria_summary := criteria_summary }
    else if agent_verdict = "accept" then
      { verdict := "accept", feedback := agent_feedback,
        checker_session := agent.sessionId, gate_results := gate_results,
        criteria_summary := criteria_summary }
    else
      { verdict := "retry", feedback := agent_feedback,
        checker_session := agent.sessionId, gate_results := gate_results,
        criteria_summary := criteria_summary }

/-- Embeds `loop.py` `run_rubric_checker`: composite rubric-based verification.
The unused parameters mirror the source signature; they only feed the
checker contract sent to the spawned agent, whose behaviour is the
`agent` environment. -/
def run_rubric_checker (exec : String → ProcOutcome) (agent : AgentEnv) (rubric : Rubric)
    (_doer_result : String) (_iteration : ℕ) (_history : List HistEntry)
    (_parent_session_id : String) : RubricOutcome :=
  let gate_results := if rubric.has_gates then run_gates exec rubric.gates else []
  if rubric.has_criteria then
    match agent.state with
    | some st =>
      if st == "aborted" || st == "failed" || st == "exited" then
        { verdict := "retry",
          feedback := "Checker session " ++ agent.sessionId ++
            " ended with state '" ++ st ++ "'",
          checker_session := agent.sessionId, gate_results := gate_results,
          criteria_summary := "" }
      else rubricAgentRest agent rubric gate_results
    | none => rubricAgentRest agent rubric gate_results
  else
    if gate_results.isEmpty then
      { verdict := "accept", feedback := "Empty rubric — no checks to run",
        checker_session := "", gate_results := [], criteria_summary := "" }
    else if gate_results.all (fun g => g.verdict == "pass") then
      { verdict := "accept",
        feedback := joinSep "\n" (gate_results.map (fun g =>
          "- " ++ String.mk [backtick] ++ g.command ++ String.mk [backtick] ++ ": PASS")),
        checker_session := "", gate_results := gate_results, criteria_summary := "" }
    else
      { verdict := "retry",
        feedback := joinSep "\n"
          ((gate_results.filter (fun g => !(g.verdict == "pass"))).map (fun g =>
            "- " ++ String.mk [backtick] ++ g.command ++ String.mk [backtick] ++
              ": FAIL\n" ++ pyTake 500 g.output)),
        checker_session := "", gate_results := gate_results, criteria_summary := "" }

example :
    (run_rubric_checker (fun _ => .completed 0 "" "") ⟨"", none, ""⟩ {} "" 0 [] "").verdict
      = "accept" := by decide
example :
    (run_rubric_checker (fun _ => .completed 0 "ok" "") ⟨"", none, ""⟩
      { gates := ["true"] } "" 0 [] "").verdict = "accept" := by decide
example :
    (run_rubric_checker (fun _ => .completed 1 "boom" "") ⟨"", none, ""⟩
      { gates := ["false"] } "" 0 [] "").verdict = "retry" := by decide
example :
    (run_rubric_checker (fun _ => .completed 1 "boom" "") ⟨"2.1-0-check", some "done", "TERMINATE"⟩
      { gates := ["false"], criteria := ["works"] } "" 0 [] "").verdict = "terminate" := by decide

/-- Feedback block combining the failed gates (criteria mode). -/
def gateFailFeedback (gr : List GateResult) : String :=
  "Failed gates:\n" ++ joinSep "\n" ((gr.filter (fun g => !(g.verdict == "pass"))).map
    (fun g => "- " ++ String.mk [backtick] ++ g.command ++ String.mk [backtick] ++
      ": " ++ pyTake 500 g.output))

/-- Feedback of a gates-only rubric whose gates all passed. -/
def gatesOnlyPassFeedback (gr : List GateResult) : String :=
  joinSep "\n" (gr.map (fun g =>
    "- " ++ String.mk [backtick] ++ g.command ++ String.mk [backtick] ++ ": PASS"))

/-- Feedback of a gates-only rubric with failures. -/
def gatesOnlyFailFeedback (gr : List GateResult) : String :=
  joinSep "\n" ((gr.filter (fun g => !(g.verdict == "pass"))).map (fun g =>
    "- " ++ String.mk [backtick] ++ g.command ++ String.mk [backtick] ++
      ": FAIL\n" ++ pyTake 500 g.output))

theorem gate_results_if_eq (exec : String → ProcOutcome) (rubric : Rubric) :
    (if rubric.has_gates then run_gates exec rubric.gates else []) =
      run_gates exec rubric.gates := by
  by_cases hg : rubric.gates = []
  · simp [Rubric.has_gates, hg, run_gates]
  · simp [Rubric.has_gates, hg]

theorem parse_verdict_snd (r : String) : (parse_verdict r).2 = r := by
  unfold parse_verdict
  rw [verdictScan_spec]

/-- C1.  The composite verdict of `run_rubric_checker`: an empty rubric
accepts with "Empty rubric — no checks to run"; with criteria present and a
completed, non-empty agent response, agent `terminate` wins, otherwise any
failed gate forces `retry` with the combined failed-gate/agent feedback,
otherwise the agent verdict decides; a gates-only rubric accepts iff all
gates pass and otherwise retries with the combined failed-gate output. -/
theorem run_rubric_checker_composite (exec : String → ProcOutcome) (agent : AgentEnv)
    (rubric : Rubric) (dr : String) (it : ℕ) (hist : List HistEntry) (pid : String) :
    (rubric.gates = [] ∧ rubric.criteria = [] ∧ rubric.nice_to_have = [] →
      run_rubric_checker exec agent rubric dr it hist pid =
        { verdict := "accept", feedback := "Empty rubric — no checks to run",
          checker_session := "", gate_results := [], criteria_summary := "" }) ∧
    (rubric.has_criteria = true →
      (∀ st, agent.state = some st → st ≠ "aborted" ∧ st ≠ "failed" ∧ st ≠ "exited") →
      agent.response ≠ "" →
      (((parse_verdict agent.response).1 = "terminate" →
        (run_rubric_checker exec agent rubric dr it hist pid).verdict = "terminate") ∧
      ((parse_verdict agent.response).1 ≠ "terminate" →
        (∃ g ∈ run_gates exec rubric.gates, g.verdict ≠ "pass") →
        (run_rubric_checker exec agent rubric dr it hist pid).verdict = "retry" ∧
        (run_rubric_checker exec agent rubric dr it hist pid).feedback =
          gateFailFeedback (run_gates exec rubric.gates) ++
            "\n\nAgent feedback:\n" ++ agent.response) ∧
      ((∀ g ∈ run_gates exec rubric.gates, g.verdict = "pass") →
        (run_rubric_checker exec agent rubric dr it hist pid).verdict =
          (if (parse_verdict agent.response).1 = "terminate" then "terminate"
           else if (parse_verdict agent.response).1 = "accept" then "accept"
           else "retry") ∧
        (run_rubric_checker exec agent rubric dr it hist pid).feedback =
          agent.response))) ∧
    (rubric.has_criteria = false → rubric.gates ≠ [] →
      ((∀ g ∈ run_gates exec rubric.gates, g.verdict = "pass") →
        (run_rubric_checker exec agent rubric dr it hist pid).verdict = "accept" ∧
        (run_rubric_checker exec agent rubric dr it hist pid).feedback =
          gatesOnlyPassFeedback (run_gates exec rubric.gates)) ∧
      ((∃ g ∈ run_gates exec rubric.gates, g.verdict ≠ "pass") →
        (run_rubric_checker exec agent rubric dr it hist pid).verdict = "retry" ∧
        (run_rubric_checker exec agent rubric dr it hist pid).feedback =
          gatesOnlyFailFeedback (run_gates exec rubric.gates))) := by
  refine ⟨?_, ?_, ?_⟩
  · rintro ⟨h1, h2, h3⟩
    simp [run_rubric_checker, Rubric.has_gates, Rubric.has_criteria, h1, h2, h3]
  · intro hcrit hok hresp
    have hfb := parse_verdict_snd agent.response
    have hR : run_rubric_checker exec agent rubric dr it hist pid =
        rubricAgentRest agent rubric (run_gates exec rubric.gates) := by
      unfold run_rubric_checker
      rw [gate_results_if_eq, hcrit]
      cases hstate : agent.state with
      | none => simp
      | some st =>
        obtain ⟨h1, h2, h3⟩ := hok st hstate
        simp [h1, h2, h3]
    rw [hR]
    unfold rubricAgentRest
    rw [if_neg hresp]
    refine ⟨?_, ?_, ?_⟩
    · intro hterm
      simp [hterm]
    · intro hterm hfail
      have hall : (run_gates exec rubric.gates).all (fun g => g.verdict == "pass") = false := by
        obtain ⟨g, hg, hgv⟩ := hfail
        rw [← Bool.not_eq_true, List.all_eq_true]
        intro hcontra
        exact hgv (by simpa using hcontra g hg)
      simp [hterm, hall, gateFailFeedback, hfb]
    · intro hpass
      have hall : (run_gates exec rubric.gates).all (fun g => g.verdict == "pass") = true := by
        rw [List.all_eq_true]
        intro g hg
        simpa using hpass g hg
      by_cases hterm : (parse_verdict agent.response).1 = "terminate"
      · simp [hterm, hfb]
      · by_cases hacc : (parse_verdict agent.response).1 = "accept"
        · simp [hterm, hacc, hall, hfb]
        · simp [hterm, hacc, hall, hfb]
  · intro hcrit hg
    have hR : run_rubric_checker exec agent rubric dr it hist pid =
        (if (run_gates exec rubric.gates).isEmpty then
          { verdict := "accept", feedback := "Empty rubric — no checks to run",
            checker_session := "", gate_results := [], criteria_summary := "" }
        else if (run_gates exec rubric.gates).all (fun g => g.verdict == "pass") then
          { verdict := "accept",
            feedback := gatesOnlyPassFeedback (run_gates exec rubric.gates),
            checker_session := "", gate_results := run_gates exec rubric.gates,
            criteria_summary := "" }
        else
          { verdict := "retry",
            feedback := gatesOnlyFailFeedback (run_gates exec rubric.gates),
            checker_session := "", gate_results := run_gates exec rubric.gates,
            criteria_summary := "" }) := by
      unfold run_rubric_checker
      rw [gate_results_if_eq, hcrit]
      simp [gatesOnlyPassFeedback, gatesOnlyFailFeedback]
    have hne : (run_gates exec rubric.gates).isEmpty = false := by
      cases hgl : rubric.gates with
      | nil => exact absurd hgl hg
      | cons a l => simp [run_gates, hgl]
    rw [hR, hne]
    constructor
    · intro hpass
      have hall : (run_gates exec rubric.gates).all (fun g => g.verdict == "pass") = true := by
        rw [List.all_eq_true]
        intro g hgm
        simpa using hpass g hgm
      simp [hall]
    · intro hfail
      have hall : (run_gates exec rubric.gates).all (fun g => g.verdict == "pass") = false := by
        obtain ⟨g, hgm, hgv⟩ := hfail
        rw [← Bool.not_eq_true, List.all_eq_true]
        intro hcontra
        exact hgv (by simpa using hcontra g hgm)
      simp [hall]

/-- Witness for `run_rubric_checker_composite`: a rubric with one criterion
whose completed agent checker answers `TERMINATE`. -/
theorem run_rubric_checker_composite_witness :
    (run_rubric_checker (fun _ => .completed 0 "ok" "") ⟨"0-0-check", some "done", "TERMINATE"⟩
      { criteria := ["works"] } "" 0 [] "").verdict = "terminate" :=
  ((run_rubric_checker_composite (fun _ => .completed 0 "ok" "")
      ⟨"0-0-check", some "done", "TERMINATE"⟩ { criteria := ["works"] } "" 0 [] "").2.1
    (by decide)
    (fun st hst => by
      injection hst with h
      subst h
      exact ⟨by decide, by decide, by decide⟩)
    (by decide)).1 (by decide)

/-! ## Embedding of `loop.py` — `run_loop` and the loop-history invariant -/

/-- Per-iteration environment of `run_loop`: what the store and the spawned
sub-agents answer at iteration `i`.  `doerState` is the state
`load_session(current_doer)` reports after `wait_for_sessions` (`none` when
the session directory is missing); `exitReason` models `load_exit_reason`;
`doerSummary` is the `summarize` helper's output; `rubricHash` the
re-computed rubric hash (`""` when there is no rubric file); the `check*`
fields are `run_checker`'s returned tuple; `nextDoerId` is the id printed
by `spawn_session` for the next doer. -/
structure IterEnv where
  doerState : Option String
  doerResult : String
  exitReason : String
  doerSummary : String
  rubricHash : String
  checkVerdict : String
  checkFeedback : String
  checkSession : String
  checkGates : List GateResult
  checkCriteria : String
  nextDoerId : String

/-- Embeds `loop.py` `LoopResult`. -/
structure LoopResult where
  session_id : String
  verdict : String
  iterations : ℕ
  history : List HistEntry := []
  result_text : String := ""
  exit_reason : String := ""
deriving Repr

/-- Arguments of one `save_loop_state` call.  Modelled from the spec:
`save_loop_state` (imported from `scope.core.state` but not among the
provided sources) persists `loop_state.json` with exactly the fields it is
passed — checker, max_iterations, current_iteration, history, rubric_path. -/
structure PersistedLoopState where
  session_id : String
  checker : String
  max_iterations : ℕ
  current_iteration : ℕ
  history : List HistEntry
  rubric_path : String

/-- The `for iteration in range(max_iterations)` loop of `run_loop`,
with `fuel = max_iterations - iteration` making the recursion structural.
Returns the `LoopResult` together with the list of `save_loop_state`
calls made, in order. -/
def runLoopGo (env : ℕ → IterEnv) (sid checker rubric_path : String) (maxIter : ℕ) :
    ℕ → ℕ → String → List HistEntry → List PersistedLoopState →
      LoopResult × List PersistedLoopState
  | 0, _, _, history, saves =>
    -- post-loop safety net: `return LoopResult(verdict="max_iterations", …)`
    ({ session_id := sid, verdict := "max_iterations", iterations := maxIter,
       history := history, result_text := "" }, saves)
  | fuel + 1, iteration, doer, history, saves =>
    let e := env iteration
    -- wait_for_sessions([current_doer]) then read_result
    let doer_result := e.doerResult
    if e.doerState = some "aborted" ∨ e.doerState = some "failed" then
      ({ session_id := sid, verdict := "terminate", iterations := iteration + 1,
         history := history, result_text := doer_result }, saves)
    else if e.doerState = some "exited" then
      ({ session_id := sid, verdict := "exit", iterations := iteration + 1,
         history := history, result_text := doer_result,
         exit_reason := e.exitReason }, saves)
    else
      -- summarize and the per-iteration rubric re-hash produce e.doerSummary
      -- and e.rubricHash; run_checker's outcome is the e.check* fields
      let entry : HistEntry :=
        { iteration := iteration, doer_session := doer,
          verdict := e.checkVerdict, feedback := e.checkFeedback,
          checker_session := if e.checkSession ≠ "" then some e.checkSession else none,
          gates := e.checkGates,
          criteria_summary := if e.checkCriteria ≠ "" then some e.checkCriteria else none,
          rubric_hash := if e.rubricHash ≠ "" then some e.rubricHash else none }
      let history2 := history ++ [entry]
      let saves2 := saves ++
        [{ session_id := sid, checker := checker, max_iterations := maxIter,
           current_iteration := iteration, history := history2,
           rubric_path := rubric_path }]
      if e.checkVerdict = "accept" then
        ({ session_id := sid, verdict := "accept", iterations := iteration + 1,
           history := history2, result_text := doer_result }, saves2)
      else if e.checkVerdict = "terminate" then
        ({ session_id := sid, verdict := "terminate", iterations := iteration + 1,
           history := history2, result_text := doer_result }, saves2)
      else if maxIter ≤ iteration + 1 then
        ({ session_id := sid, verdict := "max_iterations", iterations := iteration + 1,
           history := history2, result_text := doer_result }, saves2)
      else
        -- retry: compose the retry prompt (delivered to the next doer, an
        -- external effect) and spawn doer iter_session_id(sid, i+1, "do")
        runLoopGo env sid checker rubric_path maxIter fuel (iteration + 1)
          e.nextDoerId history2 saves2

/-- Embeds `loop.py` `run_loop`.  The prompt only feeds the retry prompt sent to
spawned doers, captured by the environment. -/
def run_loop (env : ℕ → IterEnv) (session_id _prompt checker : String)
    (max_iterations : ℕ) (rubric_path : String) :
    LoopResult × List PersistedLoopState :=
  runLoopGo env session_id checker rubric_path max_iterations max_iterations 0
    session_id [] []

/-- Iteration indexes are dense: the entry at position `k` carries
`iteration = k`. -/
def denseHistory (h : List HistEntry) : Prop :=
  ∀ k (hk : k < h.length), (h.get ⟨k, hk⟩).iteration = k

/-- Every history entry except possibly the last has verdict `retry`. -/
def retryExceptLast (h : List HistEntry) : Prop :=
  ∀ k (hk : k + 1 < h.length), (h.get ⟨k, Nat.lt_of_succ_lt hk⟩).verdict = "retry"

theorem denseHistory_append {h : List HistEntry} {entry : HistEntry}
    (hd : denseHistory h) (he : entry.iteration = h.length) :
    denseHistory (h ++ [entry]) := by
  intro k hk
  rw [List.length_append, List.length_singleton] at hk
  by_cases hlt : k < h.length
  · rw [List.get_append _ hlt]
    exact hd k hlt
  · have hk' : k = h.length := by omega
    subst hk'
    simp [List.get_append_right, he]

theorem retryExceptLast_of_all {h : List HistEntry}
    (ha : ∀ e ∈ h, e.verdict = "retry") : retryExceptLast h := by
  intro k hk
  exact ha _ (List.get_mem _ _ _)

theorem retryExceptLast_append {h : List HistEntry} {entry : HistEntry}
    (ha : ∀ e ∈ h, e.verdict = "retry") : retryExceptLast (h ++ [entry]) := by
  intro k hk
  rw [List.length_append, List.length_singleton] at hk
  have hlt : k < h.length := by omega
  rw [List.get_append _ hlt]
  exact ha _ (List.get_mem _ _ _)

theorem allRetry_append {h : List HistEntry} {entry : HistEntry}
    (ha : ∀ e ∈ h, e.verdict = "retry") (he : entry.verdict = "retry") :
    ∀ e ∈ h ++ [entry], e.verdict = "retry" := by
  intro e hmem
  rw [List.mem_append] at hmem
  rcases hmem with hm | hm
  · exact ha e hm
  · simp at hm
    subst hm
    exact he

theorem runLoopGo_invariant (env : ℕ → IterEnv) (sid checker rpath : String)
    (maxIter : ℕ)
    (hv : ∀ i, (env i).checkVerdict = "accept" ∨ (env i).checkVerdict = "terminate" ∨
      (env i).checkVerdict = "retry") :
    ∀ fuel iteration doer history saves,
      history.length = iteration →
      denseHistory history →
      (∀ e ∈ history, e.verdict = "retry") →
      (∀ p ∈ saves, p.current_iteration + 1 = p.history.length ∧
        denseHistory p.history ∧ retryExceptLast p.history) →
      denseHistory
        (runLoopGo env sid checker rpath maxIter fuel iteration doer history saves).1.history ∧
      retryExceptLast
        (runLoopGo env sid checker rpath maxIter fuel iteration doer history saves).1.history ∧
      (∀ p ∈ (runLoopGo env sid checker rpath maxIter fuel iteration doer history saves).2,
        p.current_iteration + 1 = p.history.length ∧
        denseHistory p.history ∧ retryExceptLast p.history) := by
  intro fuel
  induction fuel with
  | zero =>
    intro iteration doer history saves hlen hd ha hs
    simp only [runLoopGo]
    exact ⟨hd, retryExceptLast_of_all ha, hs⟩
  | succ f ih =>
    intro iteration doer history saves hlen hd ha hs
    simp only [runLoopGo]
    by_cases h1 : (env iteration).doerState = some "aborted" ∨
        (env iteration).doerState = some "failed"
    · rw [if_pos h1]
      exact ⟨hd, retryExceptLast_of_all ha, hs⟩
    · rw [if_neg h1]
      by_cases h2 : (env iteration).doerState = some "exited"
      · rw [if_pos h2]
        exact ⟨hd, retryExceptLast_of_all ha, hs⟩
      · rw [if_neg h2]
        set E : HistEntry :=
          { iteration := iteration, doer_session := doer,
            verdict := (env iteration).checkVerdict,
            feedback := (env iteration).checkFeedback,
            checker_session := if (env iteration).checkSession ≠ "" then
              some (env iteration).checkSession else none,
            gates := (env iteration).checkGates,
            criteria_summary := if (env iteration).checkCriteria ≠ "" then
              some (env iteration).checkCriteria else none,
            rubric_hash := if (env iteration).rubricHash ≠ "" then
              some (env iteration).rubricHash else none } with hE
        set P : PersistedLoopState :=
          { session_id := sid, checker := checker, max_iterations := maxIter,
            current_iteration := iteration, history := history ++ [E],
            rubric_path := rpath } with hP
        have hEiter : E.iteration = iteration := by rw [hE]
        have hEverdict : E.verdict = (env iteration).checkVerdict := by rw [hE]
        have hdense2 : denseHistory (history ++ [E]) :=
          denseHistory_append hd (by rw [hEiter, hlen])
        have hall2 : retryExceptLast (history ++ [E]) := retryExceptLast_append ha
        have hsaves2 : ∀ p ∈ saves ++ [P],
            p.current_iteration + 1 = p.history.length ∧
            denseHistory p.history ∧ retryExceptLast p.history := by
          intro p hp
          rcases List.mem_append.mp hp with hp | hp
          · exact hs p hp
          · simp only [List.mem_singleton] at hp
            subst hp
            refine ⟨?_, hdense2, hall2⟩
            rw [hP]
            simp [hlen]
        by_cases h3 : (env iteration).checkVerdict = "accept"
        · rw [if_pos h3]
          exact ⟨hdense2, hall2, hsaves2⟩
        · rw [if_neg h3]
          by_cases h4 : (env iteration).checkVerdict = "terminate"
          · rw [if_pos h4]
            exact ⟨hdense2, hall2, hsaves2⟩
          · rw [if_neg h4]
            by_cases h5 : maxIter ≤ iteration + 1
            · rw [if_pos h5]
              exact ⟨hdense2, hall2, hsaves2⟩
            · rw [if_neg h5]
              refine ih (iteration + 1) (env iteration).nextDoerId (history ++ [E])
                (saves ++ [P]) (by simp [hlen]) hdense2 ?_ hsaves2
              refine allRetry_append ha ?_
              rw [hEverdict]
              rcases hv iteration with h | h | h
              · exact absurd h h3
              · exact absurd h h4
              · exact h

/-- C2.  In every execution of `run_loop` (over any environment whose
checker returns one of the three verdicts, as `run_checker` does), the
history built and returned is dense (`entry k` has `iteration = k`), every
entry except possibly the last has verdict `retry`, and every
`save_loop_state` call persists `current_iteration = len(history) - 1`
(stated as `current_iteration + 1 = len`), with the persisted history also
dense and retry-before-last. -/
theorem run_loop_history_invariant (env : ℕ → IterEnv)
    (sid prompt checker : String) (maxIter : ℕ) (rpath : String)
    (hv : ∀ i, (env i).checkVerdict = "accept" ∨ (env i).checkVerdict = "terminate" ∨
      (env i).checkVerdict = "retry") :
    denseHistory (run_loop env sid prompt checker maxIter rpath).1.history ∧
    retryExceptLast (run_loop env sid prompt checker maxIter rpath).1.history ∧
    (∀ p ∈ (run_loop env sid prompt checker maxIter rpath).2,
      p.current_iteration + 1 = p.history.length ∧
      denseHistory p.history ∧ retryExceptLast p.history) := by
  unfold run_loop
  exact runLoopGo_invariant env sid checker rpath maxIter hv maxIter 0 sid [] []
    rfl (fun k hk => absurd hk (by simp)) (fun e he => absurd he (by simp))
    (fun p hp => absurd hp (by simp))

/-- Witness for `run_loop_history_invariant`: a loop that retries once and
then hits max_iterations. -/
theorem run_loop_history_invariant_witness :
    denseHistory (run_loop
      (fun _ => ⟨some "done", "r", "", "s", "", "retry", "fb", "", [], "", "0-1-do"⟩)
      "0" "p" "false" 2 "").1.history ∧
    retryExceptLast (run_loop
      (fun _ => ⟨some "done", "r", "", "s", "", "retry", "fb", "", [], "", "0-1-do"⟩)
      "0" "p" "false" 2 "").1.history ∧
    (∀ p ∈ (run_loop
      (fun _ => ⟨some "done", "r", "", "s", "", "retry", "fb", "", [], "", "0-1-do"⟩)
      "0" "p" "false" 2 "").2,
      p.current_iteration + 1 = p.history.length) :=
  have h := run_loop_history_invariant
    (fun _ => ⟨some "done", "r", "", "s", "", "retry", "fb", "", [], "", "0-1-do"⟩)
    "0" "p" "false" 2 "" (fun _ => Or.inr (Or.inr rfl))
  ⟨h.1, h.2.1, fun p hp => (h.2.2 p hp).1⟩

example :
    ((run_loop (fun _ => ⟨some "done", "r", "", "s", "", "retry", "fb", "", [], "", "0-1-do"⟩)
      "0" "p" "false" 2 "").1.verdict = "max_iterations") ∧
    ((run_loop (fun _ => ⟨some "done", "r", "", "s", "", "retry", "fb", "", [], "", "0-1-do"⟩)
      "0" "p" "false" 2 "").1.history.length = 2) := by decide

/-! ## Embedding of `scope/core/termination.py` -/

/-- Embeds `termination.py` `TerminationCheck`. -/
structure TerminationCheck where
  criterion : String
  passed : Bool
  detail : String := ""
deriving Repr, DecidableEq

/-- Embeds `termination.py` `TerminationResult` (the `summary` formatter is not
needed by the claims). -/
structure TerminationResult where
  checks : List TerminationCheck
  iteration : ℕ
  max_iterations : ℕ
  recommend_terminate : Bool
  reason : String
deriving Repr, DecidableEq

/-- Table `command_indicators` used by the command heuristic. -/
def command_indicators : List String :=
  ["pytest", "ruff", "mypy", "black", "cargo", "npm", "make",
   "go ", "python", "node", "bash", "sh ", "test ", "./"]

/-- Embeds `termination.py` `_is_command`: the lowercased, stripped criterion
starts with a known command prefix. -/
def is_command (criterion : String) : Bool :=
  command_indicators.any (fun pre => pyStartswith (pyStrip (pyLower criterion)) pre)

/-- Python `str.splitlines()` restricted to `\n` separators (the embedded inputs
contain no `\r`/unicode line breaks): like `split("\n")` but empty input
gives `[]` and a trailing newline adds no empty line. -/
def pySplitlines (s : String) : List String :=
  if s = "" then []
  else
    let ls := splitChar '\n' s.data
    (if ls.getLast? = some [] then ls.dropLast else ls).map String.mk

/-- Embeds `termination.py` `_run_command_criterion`: run the criterion as a shell
command; on failure the detail is the last line of stderr-or-stdout,
truncated to 200 characters. -/
def run_command_criterion (exec : String → ProcOutcome) (criterion : String) :
    TerminationCheck :=
  match exec criterion with
  | .completed rc out err =>
    if rc = 0 then { criterion := criterion, passed := true, detail := "" }
    else
      let output := if pyStrip err ≠ "" then pyStrip err else pyStrip out
      if output ≠ "" then
        { criterion := criterion, passed := false,
          detail := pyTake 200 ((pySplitlines output).getLastD "") }
      else { criterion := criterion, passed := false, detail := "" }
  | .timeout => { criterion := criterion, passed := false, detail := "command timed out" }
  | .oserror e =>
    { criterion := criterion, passed := false, detail := "execution error: " ++ e }

/-- Embeds `termination.py` `run_criterion`. -/
def run_criterion (exec : String → ProcOutcome) (criterion : String) : TerminationCheck :=
  if is_command criterion then run_command_criterion exec criterion
  else
    { criterion := criterion, passed := false,
      detail := "descriptive criterion — cannot be automatically verified" }

/-- Embeds `termination.py` `evaluate_termination`. -/
def evaluate_termination (exec : String → ProcOutcome) (criteria : List String)
    (iteration max_iterations : ℕ) : TerminationResult :=
  let checks := criteria.map (run_criterion exec)
  let all_passed := checks.all (fun c => c.passed)
  let at_max := max_iterations ≤ iteration
  if all_passed then
    { checks := checks, iteration := iteration, max_iterations := max_iterations,
      recommend_terminate := true, reason := "all criteria passed" }
  else if at_max then
    { checks := checks, iteration := iteration, max_iterations := max_iterations,
      recommend_terminate := true,
      reason := "max iterations (" ++ pyStr max_iterations ++ ") reached; still failing: " ++
        joinSep ", " ((checks.filter (fun c => !c.passed)).map (fun c => c.criterion)) }
  else
    { checks := checks, iteration := iteration, max_iterations := max_iterations,
      recommend_terminate := false,
      reason := "criteria not met: " ++
        joinSep ", " ((checks.filter (fun c => !c.passed)).map (fun c => c.criterion)) }

example : is_command "pytest tests/" = true := by decide
example : is_command "the docs read well" = false := by decide
example :
    (evaluate_termination (fun _ => .completed 0 "" "") ["pytest -q"] 1 5).recommend_terminate
      = true := by decide
example :
    (evaluate_termination (fun _ => .completed 1 "" "") ["pytest -q"] 1 5).recommend_terminate
      = false := by decide

/-- C7.  `evaluate_termination` recommends terminate iff every criterion
passed or `iteration ≥ max_iterations`; when not all passed but the bound
is reached the reason is the "max iterations … still failing: …" string;
and a criterion not recognised as a shell command never passes, failing
with the descriptive-criterion detail. -/
theorem evaluate_termination_spec (exec : String → ProcOutcome)
    (criteria : List String) (iteration max_iterations : ℕ) :
    ((evaluate_termination exec criteria iteration max_iterations).recommend_terminate = true ↔
      ((∀ c ∈ criteria, (run_criterion exec c).passed = true) ∨ max_iterations ≤ iteration)) ∧
    (¬(∀ c ∈ criteria, (run_criterion exec c).passed = true) → max_iterations ≤ iteration →
      (evaluate_termination exec criteria iteration max_iterations).reason =
        "max iterations (" ++ pyStr max_iterations ++ ") reached; still failing: " ++
          joinSep ", " (((criteria.map (run_criterion exec)).filter
            (fun c => !c.passed)).map (fun c => c.criterion))) ∧
    ((evaluate_termination exec criteria iteration max_iterations).checks =
      criteria.map (run_criterion exec)) ∧
    (∀ c, is_command c = false →
      run_criterion exec c =
        { criterion := c, passed := false,
          detail := "descriptive criterion — cannot be automatically verified" }) := by
  have hall : ((criteria.map (run_criterion exec)).all (fun c => c.passed) = true) ↔
      (∀ c ∈ criteria, (run_criterion exec c).passed = true) := by
    rw [List.all_eq_true]
    constructor
    · intro h c hc
      exact h _ (List.mem_map_of_mem _ hc)
    · intro h x hx
      rw [List.mem_map] at hx
      obtain ⟨c, hc, rfl⟩ := hx
      exact h c hc
  refine ⟨?_, ?_, ?_, ?_⟩
  · by_cases hpass : (criteria.map (run_criterion exec)).all (fun c => c.passed) = true
    · simp [evaluate_termination, hpass]
      exact Or.inl (hall.mp hpass)
    · by_cases hmax : max_iterations ≤ iteration
      · simp [evaluate_termination, hpass, hmax]
      · have hex : ¬ (∀ c ∈ criteria, (run_criterion exec c).passed = true) :=
          fun h => hpass (hall.mpr h)
        push_neg at hex
        obtain ⟨c, hc, hcp⟩ := hex
        simp [evaluate_termination, hpass, hmax]
        exact ⟨c, hc, by simpa using hcp⟩
  · intro hnp hmax
    have hpass : (criteria.map (run_criterion exec)).all (fun c => c.passed) = false := by
      rw [← Bool.not_eq_true]
      intro hcontra
      exact hnp (hall.mp hcontra)
    simp [evaluate_termination, hpass, hmax]
  · by_cases hpass : (criteria.map (run_criterion exec)).all (fun c => c.passed) = true <;>
      by_cases hmax : max_iterations ≤ iteration <;>
      simp [evaluate_termination, hpass, hmax]
  · intro c hc
    simp [run_criterion, hc]

/-- Witness for `evaluate_termination_spec`: one failing shell criterion at
the iteration bound. -/
theorem evaluate_termination_spec_witness :
    ((evaluate_termination (fun _ => .completed 1 "" "boom") ["pytest -q"] 3 3).recommend_terminate
        = true ↔
      ((∀ c ∈ ["pytest -q"],
        (run_criterion (fun _ => .completed 1 "" "boom") c).passed = true) ∨ 3 ≤ 3)) ∧
    (evaluate_termination (fun _ => .completed 1 "" "boom") ["pytest -q"] 3 3).reason =
      "max iterations (" ++ pyStr 3 ++ ") reached; still failing: " ++
        joinSep ", " (((["pytest -q"].map
          (run_criterion (fun _ => .completed 1 "" "boom"))).filter
            (fun c => !c.passed)).map (fun c => c.criterion)) :=
  have h := evaluate_termination_spec (fun _ => .completed 1 "" "boom") ["pytest -q"] 3 3
  ⟨h.1, h.2.1 (by decide) (by decide)⟩

/-! ## Embedding of `scope/core/state.py` — id allocation -/

/-- The state store as `next_id`/`save_session`/`delete_session` see it:
the `next_id` counter file (`none` when missing; its content is the
decimal written by a previous `next_id` call) and the set of directory
names under `.scope/sessions/`. -/
structure Store where
  counter : Option ℕ
  dirs : List String
deriving Repr, DecidableEq

/-- The per-directory step of `next_id`'s child scan: a directory
contributes its child index when its name starts with `parent ++ "."`, the
remaining suffix contains no dot (direct child) and parses as an int. -/
def child_index (pre : String) (d : String) : Option ℤ :=
  if pyStartswith d pre then
    if !((pyDrop pre.length d).data.contains '.') then pyInt (pyDrop pre.length d)
    else none
  else none

/-- Embeds `state.py` `next_id`: children get `parent.(max existing direct-child
index + 1)` from a directory scan; roots read-modify-write the `next_id`
counter file.  Returns the id and the store after the call. -/
def next_id (st : Store) (parent : String) : String × Store :=
  if parent ≠ "" then
    let pre := parent ++ "."
    let max_child : ℤ := st.dirs.foldl
      (fun m d =>
        match child_index pre d with
        | some k => max m k
        | none => m) (-1)
    (parent ++ "." ++ pyStrInt (max_child + 1), st)
  else
    let current : ℕ := match st.counter with
      | some n => n
      | none => 0
    (pyStr current, { st with counter := some (current + 1) })

/-- Embeds `state.py` `delete_session`: `rmtree` of the single session directory
(child sessions are sibling directories and are not removed); `none`
models the `FileNotFoundError` raised for a missing session. -/
def delete_session (st : Store) (session_id : String) : Option Store :=
  if session_id ∈ st.dirs then some { st with dirs := st.dirs.erase session_id }
  else none

example : next_id ⟨some 2, ["0", "1"]⟩ "" = ("2", ⟨some 3, ["0", "1"]⟩) := by decide
example : (next_id ⟨some 2, ["0", "0.0", "0.1"]⟩ "0").1 = "0.2" := by decide
example : (next_id ⟨some 2, ["0", "0.0-1-do"]⟩ "0").1 = "0.0" := by decide

/-- Store operations relevant to id reuse: `alloc` is a `next_id` call
(roots have `parent = ""`), `mkdir` is `save_session`'s directory
creation, `delete` is `delete_session` (ignored when the directory is
missing, as the caller would see the raised error instead). -/
inductive StoreOp
  | alloc (parent : String)
  | mkdir (id : String)
  | delete (id : String)

/-- Run a trace of store operations; returns the final store and the ids
handed out by the root `next_id` calls, in order. -/
def runOps : Store → List StoreOp → Store × List String
  | st, [] => (st, [])
  | st, .alloc parent :: ops =>
    let r := next_id st parent
    let rest := runOps r.2 ops
    (rest.1, (if parent = "" then [r.1] else []) ++ rest.2)
  | st, .mkdir id :: ops =>
    runOps { st with dirs := if id ∈ st.dirs then st.dirs else st.dirs ++ [id] } ops
  | st, .delete id :: ops =>
    runOps (match delete_session st id with | some st' => st' | none => st) ops

/-- Value of the counter file (missing reads as 0, as in `next_id`). -/
def counterVal (st : Store) : ℕ := st.counter.getD 0

theorem next_id_root (st : Store) :
    next_id st "" = (pyStr (counterVal st), { st with counter := some (counterVal st + 1) }) := by
  cases hc : st.counter <;> simp [next_id, counterVal, hc]

theorem next_id_child_store (st : Store) (p : String) (hp : p ≠ "") :
    (next_id st p).2 = st := by
  simp [next_id, hp]

theorem fold_max_ge_init (pre : String) :
    ∀ (l : List String) (a : ℤ),
      a ≤ l.foldl (fun m d =>
        match child_index pre d with
        | some k => max m k
        | none => m) a := by
  intro l
  induction l with
  | nil => intro a; simp
  | cons d rest ih =>
    intro a
    simp only [List.foldl_cons]
    refine le_trans ?_ (ih _)
    cases child_index pre d <;> simp

theorem fold_max_ge_mem (pre : String) :
    ∀ (l : List String) (a : ℤ) (d : String) (k : ℤ),
      d ∈ l → child_index pre d = some k →
      k ≤ l.foldl (fun m d =>
        match child_index pre d with
        | some k => max m k
        | none => m) a := by
  intro l
  induction l with
  | nil => intro a d k hd; exact absurd hd (by simp)
  | cons x rest ih =>
    intro a d k hd hk
    rcases List.mem_cons.mp hd with rfl | hd'
    · simp only [List.foldl_cons, hk]
      refine le_trans ?_ (fold_max_ge_init pre rest _)
      simp
    · simp only [List.foldl_cons]
      exact ih _ d k hd' hk

example (s : String) : s.length = s.data.length := rfl

theorem isPrefixOf_self_append (a b : List Char) : a.isPrefixOf (a ++ b) = true := by
  have := isPrefixOf_append_same a [] b
  simpa using this

theorem pyStr_not_contains (n : ℕ) (ch : Char) (h : ∀ d, d < 10 → digitChar d ≠ ch) :
    ((pyStr n).data.contains ch) = false := by
  rw [← Bool.not_eq_true]
  intro hc
  have hmem : ch ∈ (pyStr n).data := by simpa using hc
  obtain ⟨d, hd, rfl⟩ := mem_pyStr_data hmem
  exact h d hd rfl

theorem pyStrInt_nonneg {z : ℤ} (hz : 0 ≤ z) : pyStrInt z = pyStr z.natAbs := by
  simp [pyStrInt, not_lt.mpr hz]

theorem child_index_self (p : String) (k : ℤ) (hk : 0 ≤ k) :
    child_index (p ++ ".") (p ++ "." ++ pyStrInt k) = some k := by
  unfold child_index
  have h1 : pyStartswith (p ++ "." ++ pyStrInt k) (p ++ ".") = true := by
    unfold pyStartswith
    rw [String.data_append]
    exact isPrefixOf_self_append _ _
  have h2 : pyDrop (p ++ ".").length (p ++ "." ++ pyStrInt k) = pyStrInt k := by
    unfold pyDrop
    rw [String.data_append]
    have hdl : ((p ++ ".").data ++ (pyStrInt k).data).drop (p ++ ".").length
        = (pyStrInt k).data := List.drop_left _ _
    rw [hdl, mk_data]
  rw [h1, h2, pyStrInt_nonneg hk]
  have hnc : ((pyStr k.natAbs).data.contains '.') = false :=
    pyStr_not_contains _ _ (fun d hd => by interval_cases d <;> decide)
  rw [hnc]
  simp [pyInt_pyStr]
  omega

theorem next_id_child_fresh (st : Store) (p : String) (hp : p ≠ "") :
    (next_id st p).1 ∉ st.dirs := by
  rw [next_id, if_pos hp]
  intro hmem
  set q : ℤ := st.dirs.foldl
    (fun m d =>
      match child_index (p ++ ".") d with
      | some k => max m k
      | none => m) (-1) with hq
  have hq0 : -1 ≤ q := fold_max_ge_init (p ++ ".") st.dirs (-1)
  have hci : child_index (p ++ ".") (p ++ "." ++ pyStrInt (q + 1)) = some (q + 1) :=
    child_index_self p (q + 1) (by omega)
  have hle := fold_max_ge_mem (p ++ ".") st.dirs (-1) _ _ hmem hci
  rw [← hq] at hle
  omega

theorem runOps_roots_spec : ∀ (ops : List StoreOp) (st : Store),
    (∀ id ∈ (runOps st ops).2, ∃ n, counterVal st ≤ n ∧ id = pyStr n) ∧
    List.Pairwise (fun a b => a ≠ b) (runOps st ops).2 := by
  intro ops
  induction ops with
  | nil =>
    intro st
    constructor
    · intro id hid
      exact absurd hid (by simp [runOps])
    · simp [runOps]
  | cons op rest ih =>
    intro st
    cases op with
    | alloc parent =>
      by_cases hp : parent = ""
      · subst hp
        have hroot := next_id_root st
        simp only [runOps, hroot, if_pos rfl, List.singleton_append]
        have hcnt : counterVal { st with counter := some (counterVal st + 1) }
            = counterVal st + 1 := rfl
        obtain ⟨ihb, ihp⟩ := ih { st with counter := some (counterVal st + 1) }
        constructor
        · intro id hid
          rcases List.mem_cons.mp hid with rfl | hid'
          · exact ⟨counterVal st, le_rfl, rfl⟩
          · obtain ⟨n, hn, rfl⟩ := ihb id hid'
            rw [hcnt] at hn
            exact ⟨n, by omega, rfl⟩
        · refine List.Pairwise.cons ?_ ihp
          intro id hid
          obtain ⟨n, hn, rfl⟩ := ihb id hid
          rw [hcnt] at hn
          intro hcontra
          have := pyStr_injective hcontra
          omega
      · simp only [runOps, next_id_child_store st parent hp, if_neg hp, List.nil_append]
        exact ih st
    | mkdir id =>
      simp only [runOps]
      exact ih _
    | delete id =>
      simp only [runOps]
      have hcv : counterVal (match delete_session st id with
          | some st' => st' | none => st) = counterVal st := by
        by_cases hmem : id ∈ st.dirs
        · simp [delete_session, hmem, counterVal]
        · simp [delete_session, hmem]
      obtain ⟨ihb, ihp⟩ := ih (match delete_session st id with
          | some st' => st' | none => st)
      refine ⟨?_, ihp⟩
      intro x hx
      obtain ⟨n, hn, rfl⟩ := ihb x hx
      rw [hcv] at hn
      exact ⟨n, hn, rfl⟩

/-- C3 counterexample.  With sessions `0`, `0.0`, `0.1` on disk, deleting
`0.1` and then asking `next_id` for a child of `0` returns `0.1` again:
the deleted child id is reused. -/
theorem next_id_reuses_deleted_child_id :
    delete_session ⟨some 2, ["0", "0.0", "0.1"]⟩ "0.1" =
        some ⟨some 2, ["0", "0.0"]⟩ ∧
    (next_id ⟨some 2, ["0", "0.0"]⟩ "0").1 = "0.1" := by
  decide

/-- C3 (amended).  Root ids are allocated by read-modify-writing the
`next_id` counter and are never reused — across any sequence of
allocations, directory creations and deletions, the root ids handed out
are pairwise distinct.  A child id is `parent.(max existing direct-child
index + 1)`, which is never an id currently on disk — but it can equal a
previously deleted child id (see the counterexample). -/
theorem next_id_monotone_amended :
    (∀ (st : Store),
      next_id st "" = (pyStr (counterVal st),
        { st with counter := some (counterVal st + 1) })) ∧
    (∀ (ops : List StoreOp) (st : Store),
      List.Pairwise (fun a b => a ≠ b) (runOps st ops).2) ∧
    (∀ (st : Store) (p : String), p ≠ "" → (next_id st p).1 ∉ st.dirs) :=
  ⟨next_id_root, fun ops st => (runOps_roots_spec ops st).2, next_id_child_fresh⟩

/-- Witness for `next_id_monotone_amended`: a trace allocating two roots
and a child, deleting a session in between. -/
theorem next_id_monotone_amended_witness :
    List.Pairwise (fun a b => a ≠ b)
      (runOps ⟨none, []⟩ [.alloc "", .mkdir "0", .alloc "0", .mkdir "0.0",
        .delete "0.0", .alloc "", .alloc ""]).2 ∧
    (next_id ⟨some 2, ["0", "0.0", "0.1"]⟩ "0").1 ∉
      (⟨some 2, ["0", "0.0", "0.1"]⟩ : Store).dirs :=
  ⟨next_id_monotone_amended.2.1 _ _,
    next_id_monotone_amended.2.2 _ "0" (by decide)⟩

/-! ## Embedding of `state.py` `save_session` / `load_session` (C4) -/

/-- Modelled from the spec: the `Session` dataclass of `scope.core.session`
(the module itself is not among the provided sources).  Its fields are the
ones the spec's data model lists and `spawn` passes to the constructor:
id, task, parent, state, tmux_session, created_at and an optional alias
(defaulting to `""`, as `load_session` constructs `Session` without it).
`created_at` is a timestamp; `datetime.isoformat`/`fromisoformat`
round-trip it, so it is modelled as the value itself. -/
structure Session where
  id : String
  task : String
  parent : String
  state : String
  tmux_session : String
  created_at : ℕ
  alias_name : String := ""   -- the source's `alias` field (`alias` is a Lean keyword)
deriving Repr, DecidableEq

/-- The files of one `.scope/sessions/<id>/` directory that
`save_session` / `load_session` touch (`none` = file absent). -/
structure SessionDir where
  task : Option String := none
  state : Option String := none
  parent : Option String := none
  tmux : Option String := none
  created_at : Option ℕ := none
  alias_file : Option String := none   -- the `alias` file of the layout
deriving Repr, DecidableEq

/-- Embeds `state.py` `save_session`: writes exactly the files `task`, `state`,
`parent`, `tmux` and `created_at` into a fresh session directory.  No
`alias` file is written. -/
def save_session (s : Session) : SessionDir :=
  { task := some s.task, state := some s.state, parent := some s.parent,
    tmux := some s.tmux_session, created_at := some s.created_at }

/-- Embeds `state.py` `load_session`: `none` when the directory is missing;
otherwise reads exactly `task`, `parent`, `state`, `tmux`, `created_at`
(a missing file raises, modelled as `none`) and constructs a `Session`
without an alias argument, so `alias` takes its default `""`. -/
def load_session (session_id : String) (dir : Option SessionDir) : Option Session :=
  match dir with
  | none => none
  | some d =>
    match d.task, d.parent, d.state, d.tmux, d.created_at with
    | some t, some p, some st, some tm, some ca =>
      some { id := session_id, task := t, parent := p, state := st,
             tmux_session := tm, created_at := ca }
    | _, _, _, _, _ => none

/-- C4.  `save_session` persists only task/state/parent/tmux/created_at, so
`load_session` after `save_session` returns the session with `alias`
reset to the default `""`: the round trip holds on those five fields and
drops the alias that `spawn` sets (here at the session record `spawn`
would save for `--id build`). -/
theorem save_load_session_drops_alias :
    (∀ s : Session,
      load_session s.id (some (save_session s)) = some { s with alias_name := "" }) ∧
    load_session "0" (some (save_session
        { id := "0", task := "Build", parent := "", state := "running",
          tmux_session := "scope-0", created_at := 1700000000, alias_name := "build" })) ≠
      some { id := "0", task := "Build", parent := "", state := "running",
             tmux_session := "scope-0", created_at := 1700000000, alias_name := "build" } := by
  constructor
  · intro s
    rfl
  · decide

/-! ## Embedding of `commands/spawn.py` — pane creation before save (C6) -/

/-- Environment of one `spawn` invocation: the caller's `SCOPE_SESSION_ID`,
whether the alias-uniqueness check fails (`load_session_by_alias`, not
among the provided sources, modelled from the spec as a lookup that the
command aborts on), and whether `create_window` raises `TmuxError`. -/
structure SpawnEnv where
  parent : String
  aliasConflict : Bool
  muxFail : Bool

/-- Embeds `spawn.py` `spawn`, at store granularity: alias check, `next_id`
allocation, tmux window creation, then — only after the window exists —
`save_session` writes the session record (contract, loop-state and
readiness handling follow inside the success path and touch only files of
the already-created record).  Returns (exit code, store, printed id). -/
def spawn (env : SpawnEnv) (st : Store) : ℕ × Store × Option String :=
  if env.aliasConflict then (1, st, none)
  else
    let r := next_id st env.parent
    if env.muxFail then
      -- `create_window` raised TmuxError: caught, diagnostics printed,
      -- `raise SystemExit(1)`; save_session is never reached
      (1, r.2, none)
    else
      (0, { r.2 with dirs := r.2.dirs ++ [r.1] }, some r.1)

theorem next_id_dirs (st : Store) (p : String) : (next_id st p).2.dirs = st.dirs := by
  by_cases hp : p = ""
  · subst hp
    rw [next_id_root]
  · rw [next_id_child_store st p hp]

/-- C6 counterexample.  A root spawn that fails at `create_window` exits 1
and writes no session record, but the store is not unchanged: `next_id`
already incremented the counter file. -/
theorem spawn_muxfail_changes_counter :
    spawn ⟨"", false, true⟩ ⟨some 0, []⟩ = (1, ⟨some 1, []⟩, none) ∧
    (⟨some 1, []⟩ : Store) ≠ ⟨some 0, []⟩ := by
  decide

/-- C6 (amended).  The mux window is created strictly before the session
record is written: if `create_window` fails, the command exits 1, prints
no id and the sessions directory is unchanged (no record is ever written);
a child spawn leaves the store fully unchanged, but a root spawn has
already read-modify-written the `next_id` counter.  On success the record
is written only after window creation. -/
theorem spawn_pane_before_save (env : SpawnEnv) (st : Store) :
    (env.aliasConflict = false → env.muxFail = true →
      (spawn env st).1 = 1 ∧
      (spawn env st).2.1.dirs = st.dirs ∧
      (spawn env st).2.2 = none ∧
      (env.parent ≠ "" → (spawn env st).2.1 = st) ∧
      (env.parent = "" →
        (spawn env st).2.1.counter = some (counterVal st + 1))) ∧
    (env.aliasConflict = false → env.muxFail = false →
      (spawn env st).2.1.dirs = st.dirs ++ [(next_id st env.parent).1]) := by
  constructor
  · intro hal hmux
    have hsp : spawn env st = (1, (next_id st env.parent).2, none) := by
      simp [spawn, hal, hmux]
    rw [hsp]
    refine ⟨rfl, next_id_dirs st env.parent, rfl, ?_, ?_⟩
    · intro hp
      exact next_id_child_store st env.parent hp
    · intro hp
      rw [hp, next_id_root]
  · intro hal hmux
    have hsp : spawn env st = (0,
        { (next_id st env.parent).2 with
          dirs := (next_id st env.parent).2.dirs ++ [(next_id st env.parent).1] },
        some (next_id st env.parent).1) := by
      simp [spawn, hal, hmux]
    rw [hsp]
    show (next_id st env.parent).2.dirs ++ [(next_id st env.parent).1] = _
    rw [next_id_dirs]

/-- Witness for `spawn_pane_before_save`: a failing child spawn and a
succeeding root spawn. -/
theorem spawn_pane_before_save_witness :
    ((spawn ⟨"0", false, true⟩ ⟨some 1, ["0"]⟩).1 = 1 ∧
      (spawn ⟨"0", false, true⟩ ⟨some 1, ["0"]⟩).2.1 = ⟨some 1, ["0"]⟩) ∧
    (spawn ⟨"", false, false⟩ ⟨some 1, ["0"]⟩).2.1.dirs =
      ["0"] ++ [(next_id ⟨some 1, ["0"]⟩ "").1] :=
  have h1 := (spawn_pane_before_save ⟨"0", false, true⟩ ⟨some 1, ["0"]⟩).1 rfl rfl
  have h2 := (spawn_pane_before_save ⟨"", false, false⟩ ⟨some 1, ["0"]⟩).2 rfl rfl
  ⟨⟨h1.1, h1.2.2.2.1 (by decide)⟩, h2⟩

/-! ## Embedding of `tui/widgets/session_tree.py` — the display sort key -/

/-- A Python value appearing in a sort-key tuple. -/
inductive PyVal
  | i (z : ℤ)
  | s (t : String)
deriving Repr, DecidableEq

/-- Python string comparison: lexicographic on code points. -/
def strCmpL : List Char → List Char → Ordering
  | [], [] => .eq
  | [], _ :: _ => .lt
  | _ :: _, [] => .gt
  | a :: as, b :: bs =>
    match compare a.toNat b.toNat with
    | .eq => strCmpL as bs
    | o => o

/-- Compare two Python values; `none` models the `TypeError` raised when an
int meets a str. -/
def pyValCmp : PyVal → PyVal → Option Ordering
  | .i a, .i b => some (compare a b)
  | .s a, .s b => some (strCmpL a.data b.data)
  | _, _ => none

/-- Python tuple `<`: compare pairwise; on full equality the shorter tuple
is smaller; `none` models a `TypeError`. -/
def pyTupleLT : List PyVal → List PyVal → Option Bool
  | [], [] => some false
  | [], _ :: _ => some true
  | _ :: _, [] => some false
  | a :: as, b :: bs =>
    match pyValCmp a b with
    | none => none
    | some .lt => some true
    | some .gt => some false
    | some .eq => pyTupleLT as bs

/-- The tuple `_session_sort_key` returns: the dot-separated tree ints,
then the `(iter, role)` pair — `(-1, "")` for a plain id. -/
structure SortKey where
  tree : List ℤ
  iter : ℤ
  role : String
deriving Repr, DecidableEq

/-- The flattened Python tuple of a key. -/
def SortKey.flatten (k : SortKey) : List PyVal :=
  k.tree.map PyVal.i ++ [PyVal.i k.iter, PyVal.s k.role]

/-- Embeds `session_tree.py` `_session_sort_key`.  `none` models the
`ValueError`/`IndexError` the Python function raises on malformed ids
(`parts[-1]` always exists since a split result is never empty, hence
`getLastD`). -/
def session_sort_key (sid : String) : Option SortKey :=
  let parts := pySplit1 sid '.'
  let last := parts.getLastD ""
  if last.data.contains '-' then
    let segs := pySplit1 last '-'
    match parts.dropLast.mapM pyInt, segs.get? 0, segs.get? 1, segs.get? 2 with
    | some treeInit, some seg0, some seg1, some role =>
      match pyInt seg0, pyInt seg1 with
      | some s0, some s1 => some ⟨treeInit ++ [s0], s1, role⟩
      | _, _ => none
    | _, _, _, _ => none
  else
    match parts.mapM pyInt with
    | some tree => some ⟨tree, -1, ""⟩
    | none => none

/-- Predicate `sort_key(a) < sort_key(b)` as the Python `sort` comparison would
evaluate it (false also when either key raises). -/
def keyLTb (a b : String) : Bool :=
  match session_sort_key a, session_sort_key b with
  | some ka, some kb => pyTupleLT ka.flatten kb.flatten == some true
  | _, _ => false

example : session_sort_key "2.1" = some ⟨[2, 1], -1, ""⟩ := by decide
example : session_sort_key "2.1-0-check" = some ⟨[2, 1], 0, "check"⟩ := by decide
example : session_sort_key "2.1-1-do" = some ⟨[2, 1], 1, "do"⟩ := by decide
example : session_sort_key "0" = some ⟨[0], -1, ""⟩ := by decide
example : keyLTb "2.1" "2.1-0-check" = true := by decide

/-- Version of `joinSep` at the character level. -/
def charJoin (sep : List Char) : List (List Char) → List Char
  | [] => []
  | [x] => x
  | x :: y :: rest => x ++ sep ++ charJoin sep (y :: rest)

theorem data_joinSep (sep : String) :
    ∀ l : List String, (joinSep sep l).data = charJoin sep.data (l.map String.data)
  | [] => rfl
  | [_] => rfl
  | x :: y :: rest => by
    have ih := data_joinSep sep (y :: rest)
    simp only [joinSep, charJoin, List.map_cons, String.data_append, ih]

theorem splitChar_charJoin (sep : Char) :
    ∀ parts : List (List Char), parts ≠ [] →
      (∀ p ∈ parts, ∀ c ∈ p, ¬c = sep) →
      splitChar sep (charJoin [sep] parts) = parts
  | [], h, _ => absurd rfl h
  | [x], _, hn => by
    simp only [charJoin]
    exact splitChar_no_sep (fun c hc => by simp [hn x (by simp) c hc])
  | x :: y :: rest, _, hn => by
    have hx : ∀ c ∈ x, (c == sep) = false :=
      fun c hc => by simp [hn x (by simp) c hc]
    have ih := splitChar_charJoin sep (y :: rest) (by simp)
      (fun p hp c hc => hn p (by simp [hp]) c hc)
    have hshape : charJoin [sep] (x :: y :: rest) = x ++ (sep :: charJoin [sep] (y :: rest)) := by
      simp [charJoin]
    rw [hshape, splitChar_append sep x _ hx, splitChar_cons_self, consSplit]
    simp [ih]

theorem joinSep_append_last (sep : String) :
    ∀ (xs : List String) (x y : String),
      joinSep sep (xs ++ [x ++ y]) = joinSep sep (xs ++ [x]) ++ y
  | [], _, _ => rfl
  | [z], x, y => by simp [joinSep, String.append_assoc]
  | z :: w :: rest, x, y => by
    have ih := joinSep_append_last sep (w :: rest) x y
    simp only [List.cons_append] at ih ⊢
    simp only [joinSep]
    simp [ih, String.append_assoc]

theorem mapM_pyInt_pyStr :
    ∀ l : List ℕ, (l.map pyStr).mapM pyInt = some (l.map (fun n => (n : ℤ))) := by
  intro l
  induction l with
  | nil => rfl
  | cons n rest ih =>
    simp only [List.map_cons, List.mapM_cons, pyInt_pyStr, ih]
    rfl

theorem pyStr_mem_ne (n : ℕ) (ch : Char) (h : ∀ d, d < 10 → digitChar d ≠ ch) :
    ∀ c ∈ (pyStr n).data, ¬c = ch := by
  intro c hc
  obtain ⟨d, hd, rfl⟩ := mem_pyStr_data hc
  exact h d hd

theorem session_sort_key_plain (t : List ℕ) (ht : t ≠ []) :
    session_sort_key (joinSep "." (t.map pyStr)) =
      some ⟨t.map (fun n => (n : ℤ)), -1, ""⟩ := by
  obtain ⟨u, a, rfl⟩ : ∃ u a, t = u ++ [a] :=
    ⟨_, _, (List.dropLast_append_getLast ht).symm⟩
  have hmapshape : (u ++ [a]).map pyStr = u.map pyStr ++ [pyStr a] := by simp
  have hfree : ∀ p ∈ ((u ++ [a]).map pyStr).map String.data, ∀ c ∈ p, ¬c = '.' := by
    intro p hp c hc
    rw [List.mem_map] at hp
    obtain ⟨q, hq, rfl⟩ := hp
    rw [List.mem_map] at hq
    obtain ⟨n, _, rfl⟩ := hq
    exact pyStr_mem_ne n '.' (fun d hd => by interval_cases d <;> decide) c hc
  have hparts : pySplit1 (joinSep "." ((u ++ [a]).map pyStr)) '.' =
      u.map pyStr ++ [pyStr a] := by
    unfold pySplit1
    rw [data_joinSep]
    rw [splitChar_charJoin '.' _ (by simp) hfree]
    simp [mk_data, List.map_map, Function.comp_def, hmapshape]
  have hnd : ((pyStr a).data.contains '-') = false :=
    pyStr_not_contains a '-' (fun d hd => by interval_cases d <;> decide)
  have hback : u.map pyStr ++ [pyStr a] = (u ++ [a]).map pyStr := hmapshape.symm
  simp only [session_sort_key]
  rw [hparts, List.getLastD_concat, hnd]
  simp only [Bool.false_eq_true, if_false]
  rw [hback, mapM_pyInt_pyStr]

theorem session_sort_key_iter (t : List ℕ) (ht : t ≠ []) (i : ℕ) (r : String)
    (hr1 : ∀ c ∈ r.data, ¬c = '-') (hr2 : ∀ c ∈ r.data, ¬c = '.') :
    session_sort_key (iter_session_id (joinSep "." (t.map pyStr)) i r) =
      some ⟨t.map (fun n => (n : ℤ)), (i : ℤ), r⟩ := by
  obtain ⟨u, a, rfl⟩ : ∃ u a, t = u ++ [a] :=
    ⟨_, _, (List.dropLast_append_getLast ht).symm⟩
  have hmapshape : (u ++ [a]).map pyStr = u.map pyStr ++ [pyStr a] := by simp
  have hdigit_dash : ∀ (n : ℕ), ∀ c ∈ (pyStr n).data, ¬c = '-' :=
    fun n => pyStr_mem_ne n '-' (fun d hd => by interval_cases d <;> decide)
  have hdigit_dot : ∀ (n : ℕ), ∀ c ∈ (pyStr n).data, ¬c = '.' :=
    fun n => pyStr_mem_ne n '.' (fun d hd => by interval_cases d <;> decide)
  have hid : iter_session_id (joinSep "." ((u ++ [a]).map pyStr)) i r =
      joinSep "." (u.map pyStr ++ [pyStr a ++ ("-" ++ pyStr i ++ "-" ++ r)]) := by
    unfold iter_session_id
    rw [hmapshape]
    have h2 : pyStr a ++ ("-" ++ pyStr i ++ "-" ++ r) =
        pyStr a ++ ("-" ++ pyStr i ++ "-" ++ r) := rfl
    rw [joinSep_append_last "." (u.map pyStr) (pyStr a) ("-" ++ pyStr i ++ "-" ++ r)]
    simp [String.append_assoc]
  rw [hid]
  have hlastdata : (pyStr a ++ ("-" ++ pyStr i ++ "-" ++ r)).data =
      (pyStr a).data ++ ('-' :: ((pyStr i).data ++ ('-' :: r.data))) := by
    simp [String.data_append]
  have hfree : ∀ p ∈ (u.map pyStr ++ [pyStr a ++ ("-" ++ pyStr i ++ "-" ++ r)]).map
      String.data, ∀ c ∈ p, ¬c = '.' := by
    intro p hp c hc
    rw [List.mem_map] at hp
    obtain ⟨q, hq, rfl⟩ := hp
    rw [List.mem_append] at hq
    rcases hq with hq | hq
    · rw [List.mem_map] at hq
      obtain ⟨n, _, rfl⟩ := hq
      exact hdigit_dot n c hc
    · simp only [List.mem_singleton] at hq
      subst hq
      rw [hlastdata] at hc
      simp only [List.mem_append, List.mem_cons] at hc
      rcases hc with h | h | h | h | h
      · exact hdigit_dot a c h
      · subst h; decide
      · exact hdigit_dot i c h
      · subst h; decide
      · exact hr2 c h
  have hparts : pySplit1 (joinSep "."
      (u.map pyStr ++ [pyStr a ++ ("-" ++ pyStr i ++ "-" ++ r)])) '.' =
      u.map pyStr ++ [pyStr a ++ ("-" ++ pyStr i ++ "-" ++ r)] := by
    unfold pySplit1
    rw [data_joinSep]
    rw [splitChar_charJoin '.' _ (by simp) hfree]
    simp [mk_data, List.map_map, Function.comp_def]
    rw [← hlastdata]
  have hcont : ((pyStr a ++ ("-" ++ pyStr i ++ "-" ++ r)).data.contains '-') = true := by
    apply List.elem_eq_true_of_mem
    rw [hlastdata]
    simp
  simp only [session_sort_key]
  rw [hparts, List.getLastD_concat, hcont]
  simp only [if_true]
  have hsegs : pySplit1 (pyStr a ++ ("-" ++ pyStr i ++ "-" ++ r)) '-' =
      [pyStr a, pyStr i, r] := by
    unfold pySplit1
    have hcj : (pyStr a ++ ("-" ++ pyStr i ++ "-" ++ r)).data =
        charJoin ['-'] [(pyStr a).data, (pyStr i).data, r.data] := by
      rw [hlastdata]
      simp [charJoin]
    rw [hcj]
    rw [splitChar_charJoin '-' [(pyStr a).data, (pyStr i).data, r.data] (by simp) ?_]
    · simp [mk_data]
    · intro p hp c hc
      simp only [List.mem_cons, List.mem_singleton] at hp
      rcases hp with rfl | rfl | rfl | h
      · exact hdigit_dash a c hc
      · exact hdigit_dash i c hc
      · exact hr1 c hc
      · exact absurd h (by simp)
  rw [hsegs, List.dropLast_concat, mapM_pyInt_pyStr]
  simp [pyInt_pyStr]

theorem pyTupleLT_same_tree (T : List ℤ) (rest1 rest2 : List PyVal) :
    pyTupleLT (T.map PyVal.i ++ rest1) (T.map PyVal.i ++ rest2) =
      pyTupleLT rest1 rest2 := by
  induction T with
  | nil => rfl
  | cons t T ih =>
    simp only [List.map_cons, List.cons_append, pyTupleLT, pyValCmp]
    rw [compare_eq_iff_eq.mpr rfl]
    exact ih

theorem keyLT_same_base_iff (T : List ℤ) (i j : ℤ) (r s : String) :
    pyTupleLT (SortKey.flatten ⟨T, i, r⟩) (SortKey.flatten ⟨T, j, s⟩) = some true ↔
      (i < j ∨ (i = j ∧ strCmpL r.data s.data = .lt)) := by
  unfold SortKey.flatten
  rw [pyTupleLT_same_tree]
  simp only [pyTupleLT, pyValCmp]
  cases hc : compare i j with
  | lt =>
    simp only []
    rw [compare_lt_iff_lt] at hc
    simp [hc]
  | eq =>
    rw [compare_eq_iff_eq] at hc
    subst hc
    simp only [lt_self_iff_false, false_or, true_and]
    cases hs : strCmpL r.data s.data <;> simp [pyTupleLT]
  | gt =>
    simp only []
    rw [compare_gt_iff_gt] at hc
    constructor
    · intro h
      exact absurd h (by simp)
    · intro h
      rcases h with h | ⟨h, _⟩
      · omega
      · omega

/-- C9.  `_session_sort_key` maps a plain id (dot-joined decimals) to its
tree ints followed by `(-1, "")`, and an iteration child built by
`iter_session_id` to the same tree ints followed by `(iteration, role)`;
the plain key precedes every iteration child of the same base, iteration
children of the same base are ordered exactly by `(iteration, role)`, and
in particular `sort_key("2.1") < sort_key("2.1-0-check") <
sort_key("2.1-0-do") < sort_key("2.1-1-check")`. -/
theorem session_sort_key_orders_loop_children :
    (∀ (t : List ℕ) (i : ℕ) (r : String), t ≠ [] →
      (∀ c ∈ r.data, ¬c = '-') → (∀ c ∈ r.data, ¬c = '.') →
      session_sort_key (joinSep "." (t.map pyStr)) =
        some ⟨t.map (fun n => (n : ℤ)), -1, ""⟩ ∧
      session_sort_key (iter_session_id (joinSep "." (t.map pyStr)) i r) =
        some ⟨t.map (fun n => (n : ℤ)), (i : ℤ), r⟩ ∧
      pyTupleLT (SortKey.flatten ⟨t.map (fun n => (n : ℤ)), -1, ""⟩)
        (SortKey.flatten ⟨t.map (fun n => (n : ℤ)), (i : ℤ), r⟩) = some true) ∧
    (∀ (T : List ℤ) (i j : ℤ) (r s : String),
      pyTupleLT (SortKey.flatten ⟨T, i, r⟩) (SortKey.flatten ⟨T, j, s⟩) = some true ↔
        (i < j ∨ (i = j ∧ strCmpL r.data s.data = .lt))) ∧
    (keyLTb "2.1" "2.1-0-check" = true ∧ keyLTb "2.1-0-check" "2.1-0-do" = true ∧
      keyLTb "2.1-0-do" "2.1-1-check" = true) := by
  refine ⟨?_, keyLT_same_base_iff, by decide, by decide, by decide⟩
  intro t i r ht hr1 hr2
  refine ⟨session_sort_key_plain t ht, session_sort_key_iter t ht i r hr1 hr2, ?_⟩
  rw [keyLT_same_base_iff]
  left
  omega

/-- Witness for `session_sort_key_orders_loop_children` at base `2.1`,
iteration 0, role `check`. -/
theorem session_sort_key_orders_loop_children_witness :
    session_sort_key (joinSep "." ([2, 1].map pyStr)) = some ⟨[2, 1], -1, ""⟩ ∧
    session_sort_key (iter_session_id (joinSep "." ([2, 1].map pyStr)) 0 "check") =
      some ⟨[2, 1], 0, "check"⟩ ∧
    pyTupleLT (SortKey.flatten ⟨[2, 1], -1, ""⟩)
      (SortKey.flatten ⟨[2, 1], 0, "check"⟩) = some true :=
  session_sort_key_orders_loop_children.1 [2, 1] 0 "check" (by decide) (by decide)
    (by decide)

/-! ## Embedding of `state.py` `load_all` / `get_descendants` (C10) -/

/-- Python `s.count(".")`. -/
def countDot (s : String) : ℕ := (s.data.filter (fun c => c == '.')).length

/-- Embeds `state.py` `load_all`: all stored sessions sorted by `created_at`
(oldest first; Python's stable sort, modelled by stable merge sort). -/
def load_all (stored : List Session) : List Session :=
  stored.mergeSort (fun a b => decide (a.created_at ≤ b.created_at))

/-- Embeds `state.py` `get_descendants`: the stored sessions whose id starts with
`session_id ++ "."`, sorted by dot count descending (deepest first;
`sorted(…, reverse=True)` is stable descending). -/
def get_descendants (stored : List Session) (session_id : String) : List Session :=
  ((load_all stored).filter
    (fun s => pyStartswith s.id (session_id ++ "."))).mergeSort
    (fun a b => decide (countDot b.id ≤ countDot a.id))

theorem iter_id_not_dot_child (p : String) (i : ℕ) (role : String) :
    pyStartswith (iter_session_id p i role) (p ++ ".") = false := by
  unfold pyStartswith iter_session_id
  have hL : (p ++ "-" ++ pyStr i ++ "-" ++ role).data =
      p.data ++ ('-' :: ((pyStr i).data ++ ('-' :: role.data))) := by
    simp [String.data_append]
  have hR : (p ++ ".").data = p.data ++ ['.'] := by
    simp [String.data_append]
  rw [hL, hR, isPrefixOf_append_same]
  rfl

/-- C10.  `get_descendants p` returns exactly the stored sessions whose id
has `p ++ "."` as a prefix, sorted by dot count in descending order
(deepest first); iteration-suffixed loop children `p-<iter>-<role>` do not
carry the dot prefix and are never included. -/
theorem get_descendants_spec (stored : List Session) (p : String) :
    (∀ s, s ∈ get_descendants stored p ↔
      s ∈ stored ∧ pyStartswith s.id (p ++ ".") = true) ∧
    List.Pairwise (fun a b => countDot b.id ≤ countDot a.id)
      (get_descendants stored p) ∧
    (∀ (i : ℕ) (role : String) (s : Session),
      s.id = iter_session_id p i role → s ∉ get_descendants stored p) := by
  have hmem : ∀ s, s ∈ get_descendants stored p ↔
      s ∈ stored ∧ pyStartswith s.id (p ++ ".") = true := by
    intro s
    unfold get_descendants
    rw [(List.mergeSort_perm _ _).mem_iff, List.mem_filter]
    unfold load_all
    rw [(List.mergeSort_perm _ _).mem_iff]
  refine ⟨hmem, ?_, ?_⟩
  · have hsorted := @List.sorted_mergeSort Session
      (fun a b : Session => decide (countDot b.id ≤ countDot a.id))
      (fun a b c hab hbc => by
        simp only [decide_eq_true_eq] at hab hbc ⊢
        omega)
      (fun a b => by
        simp only [Bool.or_eq_true, decide_eq_true_eq]
        omega)
      ((load_all stored).filter (fun s => pyStartswith s.id (p ++ ".")))
    refine hsorted.imp ?_
    intro a b h
    simpa using h
  · intro i role s hsid hmem'
    have h := ((hmem s).mp hmem').2
    rw [hsid, iter_id_not_dot_child] at h
    exact absurd h (by simp)

/-- Witness for `get_descendants_spec` on a small concrete store. -/
theorem get_descendants_spec_witness :
    (⟨"2.1.3", "t", "2.1", "done", "w", 5, ""⟩ : Session) ∈
      get_descendants
        [⟨"2.1", "t", "2", "running", "w", 1, ""⟩,
         ⟨"2.1.3", "t", "2.1", "done", "w", 5, ""⟩,
         ⟨"2.1-0-check", "t", "2.1", "done", "w", 3, ""⟩] "2.1" ∧
    (⟨"2.1-0-check", "t", "2.1", "done", "w", 3, ""⟩ : Session) ∉
      get_descendants
        [⟨"2.1", "t", "2", "running", "w", 1, ""⟩,
         ⟨"2.1.3", "t", "2.1", "done", "w", 5, ""⟩,
         ⟨"2.1-0-check", "t", "2.1", "done", "w", 3, ""⟩] "2.1" :=
  have h := get_descendants_spec
    [⟨"2.1", "t", "2", "running", "w", 1, ""⟩,
     ⟨"2.1.3", "t", "2.1", "done", "w", 5, ""⟩,
     ⟨"2.1-0-check", "t", "2.1", "done", "w", 3, ""⟩] "2.1"
  ⟨(h.1 _).mpr ⟨by decide, by decide⟩,
    h.2.2 0 "check" ⟨"2.1-0-check", "t", "2.1", "done", "w", 3, ""⟩ (by decide)⟩
